import Mathlib

/-!
Verification of the snapshot merge and reconciliation engine of the
Expense-Tracker repository.

The definitions below are a shallow embedding of the Python source:
- src/src/database/models.py      (Holding, Snapshot, HoldingType)
- src/src/database/repository.py  (PortfolioRepository methods)
- src/src/services/portfolio.py   (calculate_portfolio_summary)
- src/app/pages/6_Crypto.py       (the save-positions handler: merge followed
                                   by the summarize-and-save handoff)

The SQLite store is modelled as explicit lists of rows; datetimes carry
calendar-date semantics (the pages zero out the time components before use);
Python floats are modelled as rationals.
-/

/-- A calendar date, as used for snapshot_date columns (time-of-day components
are zeroed by the callers before any date reaches the repository). -/
structure Date where
  year : Nat
  month : Nat
  day : Nat
deriving DecidableEq

/-- Chronological strict order on dates (what SQL date comparison and Python
datetime comparison give on the year/month/day fields). -/
def Date.lt (a b : Date) : Prop :=
  a.year < b.year ∨ (a.year = b.year ∧
    (a.month < b.month ∨ (a.month = b.month ∧ a.day < b.day)))

instance (a b : Date) : Decidable (Date.lt a b) := by
  unfold Date.lt
  infer_instance

/-- Chronological order on dates. -/
def Date.le (a b : Date) : Prop :=
  Date.lt a b ∨ a = b

instance (a b : Date) : Decidable (Date.le a b) := by
  unfold Date.le
  infer_instance

/-- Python max(old_date, new_date): the first argument is returned when the
two compare equal, otherwise the larger. -/
def dmax (a b : Date) : Date :=
  if Date.lt a b then b else a

/-- A date whose month and day fields are in calendar range. -/
def validDate (d : Date) : Prop :=
  1 ≤ d.month ∧ d.month ≤ 12 ∧ 1 ≤ d.day ∧ d.day ≤ 31

instance (d : Date) : Decidable (validDate d) := by
  unfold validDate
  infer_instance

/-- Two dates fall in the same calendar month. -/
def sameMonth (a b : Date) : Prop :=
  a.year = b.year ∧ a.month = b.month

instance (a b : Date) : Decidable (sameMonth a b) := by
  unfold sameMonth
  infer_instance

/-- HoldingType enum of models.py. -/
inductive HoldingType where
  | stock
  | mutual_fund
  | us_stock
  | crypto
deriving DecidableEq

/-- A row of the holdings table (models.py Holding, minus the surrogate id). -/
structure Holding where
  snapshot_date : Date
  type : HoldingType
  name : String
  symbol : Option String
  isin : Option String
  units : Rat
  avg_price : Rat
  current_price : Rat
  invested_value : Rat
  current_value : Rat
  unrealized_pl : Rat
  unrealized_pl_pct : Rat
deriving DecidableEq

/-- One row of the DataFrame handed to save_holdings and
merge_holdings_within_month: a holding whose date field is not yet
authoritative (save_holdings stamps the supplied snapshot_date). -/
structure HoldingRow where
  type : HoldingType
  name : String
  symbol : Option String
  isin : Option String
  units : Rat
  avg_price : Rat
  current_price : Rat
  invested_value : Rat
  current_value : Rat
  unrealized_pl : Rat
  unrealized_pl_pct : Rat
deriving DecidableEq

/-- save_holdings builds a Holding from a DataFrame row plus the snapshot
date (repository.py lines 89-106). -/
def HoldingRow.toHolding (r : HoldingRow) (snapshot_date : Date) : Holding :=
  { snapshot_date := snapshot_date
    type := r.type
    name := r.name
    symbol := r.symbol
    isin := r.isin
    units := r.units
    avg_price := r.avg_price
    current_price := r.current_price
    invested_value := r.invested_value
    current_value := r.current_value
    unrealized_pl := r.unrealized_pl
    unrealized_pl_pct := r.unrealized_pl_pct }

/-- A row of the snapshots table (models.py Snapshot, minus the surrogate id). -/
structure Snapshot where
  snapshot_date : Date
  total_value : Rat
  stocks_value : Rat
  mf_value : Rat
  us_stocks_value : Rat
  crypto_value : Rat
  total_invested : Rat
  total_pl : Rat
  total_pl_pct : Rat
  benchmark_nifty : Option Rat
  benchmark_sensex : Option Rat
deriving DecidableEq

/-- The SQLite database: the two tables the merge engine touches.  Rows are
kept in insertion order, as SQLAlchemy writes them. -/
structure Store where
  holdings : List Holding
  snapshots : List Snapshot
deriving DecidableEq

/-- The empty database. -/
def emptyStore : Store :=
  { holdings := [], snapshots := [] }

/-- repository.save_holdings: stamps every DataFrame row with snapshot_date,
inserts all of them, returns the number inserted (lines 78-110). -/
def save_holdings (s : Store) (holdings_df : List HoldingRow)
    (snapshot_date : Date) : Store × Nat :=
  ({ s with holdings := s.holdings ++ holdings_df.map (·.toHolding snapshot_date) },
   holdings_df.length)

/-- repository.get_holdings with an explicit snapshot_date: all holdings at
that date (lines 123-125). -/
def get_holdings (s : Store) (snapshot_date : Date) : List Holding :=
  s.holdings.filter (fun h => decide (h.snapshot_date = snapshot_date))

/-- repository.save_snapshot: insert one snapshot row (lines 182-192). -/
def save_snapshot (s : Store) (snap : Snapshot) : Store :=
  { s with snapshots := s.snapshots ++ [snap] }

/-- repository.snapshot_exists (lines 270-283). -/
def snapshot_exists (s : Store) (snapshot_date : Date) : Bool :=
  s.snapshots.any (fun sn => decide (sn.snapshot_date = snapshot_date))

/-- repository.delete_snapshot: deletes the holdings at the date, then the
snapshot row at the date (lines 285-309). -/
def delete_snapshot (s : Store) (snapshot_date : Date) : Store :=
  { holdings := s.holdings.filter (fun h => !decide (h.snapshot_date = snapshot_date))
    snapshots := s.snapshots.filter (fun sn => !decide (sn.snapshot_date = snapshot_date)) }

/-- repository.delete_holdings_by_type: deletes holdings at the date whose
type is in the given list, returns how many were deleted (lines 330-353). -/
def delete_holdings_by_type (s : Store) (snapshot_date : Date)
    (holding_types : List HoldingType) : Store × Nat :=
  let keep := fun (h : Holding) =>
    !decide (h.snapshot_date = snapshot_date ∧ h.type ∈ holding_types)
  ({ s with holdings := s.holdings.filter keep },
   s.holdings.countP
     (fun h => decide (h.snapshot_date = snapshot_date ∧ h.type ∈ holding_types)))

/-- First day of the target date's month: target_date.replace(day=1, ...) with
the time components zeroed (repository.py lines 509-511). -/
def firstOfMonth (target_date : Date) : Date :=
  { target_date with day := 1 }

/-- First day of the next month, rolling December over to January of the next
year (repository.py lines 512-519). -/
def firstOfNextMonth (target_date : Date) : Date :=
  if target_date.month = 12 then
    { year := target_date.year + 1, month := 1, day := 1 }
  else
    { year := target_date.year, month := target_date.month + 1, day := 1 }

/-- The half-open month window test used by find_snapshot_in_month's query:
first_of_month <= snapshot_date < first_of_next_month. -/
def inMonthWindow (target_date d : Date) : Prop :=
  Date.le (firstOfMonth target_date) d ∧ Date.lt d (firstOfNextMonth target_date)

instance (t d : Date) : Decidable (inMonthWindow t d) := by
  unfold inMonthWindow
  infer_instance

/-- The scalar() of the descending-ordered query: the row with the latest
snapshot_date among the candidates (first one wins on a tie, unreachable
under the table's unique constraint on snapshot_date). -/
def pickLatest : List Snapshot → Option Snapshot
  | [] => none
  | sn :: rest =>
    match pickLatest rest with
    | none => some sn
    | some b => if Date.lt sn.snapshot_date b.snapshot_date then some b else some sn

/-- repository.find_snapshot_in_month: most recent snapshot whose date lies in
the calendar-month window of target_date, with its date (lines 497-533). -/
def find_snapshot_in_month (s : Store) (target_date : Date) :
    Option (Date × Snapshot) :=
  match pickLatest (s.snapshots.filter
      (fun sn => decide (inMonthWindow target_date sn.snapshot_date))) with
  | some sn => some (sn.snapshot_date, sn)
  | none => none

/-- The per-holding decision inside migrate_holdings_to_new_date's loop:
a holding at old_date is deleted when its type is excluded, re-dated to
new_date otherwise; other holdings are untouched (lines 553-563). -/
def migrateStep (old_date new_date : Date) (exclude_types : List HoldingType)
    (h : Holding) : Option Holding :=
  if h.snapshot_date = old_date then
    if h.type ∈ exclude_types then none
    else some { h with snapshot_date := new_date }
  else some h

/-- repository.migrate_holdings_to_new_date: move holdings from old_date to
new_date, deleting those of the excluded types; returns the number moved
(lines 535-566). -/
def migrate_holdings_to_new_date (s : Store) (old_date new_date : Date)
    (exclude_types : List HoldingType) : Store × Nat :=
  ({ s with holdings := s.holdings.filterMap (migrateStep old_date new_date exclude_types) },
   s.holdings.countP
     (fun h => decide (h.snapshot_date = old_date ∧ h.type ∉ exclude_types)))

/-- The inline snapshot-row deletion in merge_holdings_within_month's
else-branch (lines 609-616): deletes only the snapshot row at old_date,
leaving holdings untouched. -/
def delete_snapshot_row (s : Store) (old_date : Date) : Store :=
  { s with snapshots := s.snapshots.filter (fun sn => !decide (sn.snapshot_date = old_date)) }

/-- Steps 1-2 of merge_holdings_within_month (lines 592-619): resolve the
period and reconcile the existing holdings/snapshot, before the new batch is
written.  Each constituent repository call commits in its own session, so
this is exactly the database state reached if the process stops right before
the final save_holdings call. -/
def merge_reconcile (s : Store) (new_date : Date)
    (upload_types : List HoldingType) : Store × Nat × Date :=
  match find_snapshot_in_month s new_date with
  | some (old_date, _) =>
    let final_date := dmax old_date new_date
    if old_date ≠ final_date then
      let (s1, migrated) := migrate_holdings_to_new_date s old_date final_date upload_types
      (delete_snapshot s1 old_date, migrated, final_date)
    else
      let (s1, _) := delete_holdings_by_type s old_date upload_types
      (delete_snapshot_row s1 old_date, 0, final_date)
  | none => (s, 0, new_date)

/-- repository.merge_holdings_within_month (lines 568-622): reconcile against
any same-month snapshot, then save the new batch at final_date; returns
(migrated_count, new_count, final_date). -/
def merge_holdings_within_month (s : Store) (new_date : Date)
    (new_holdings_df : List HoldingRow) (upload_types : List HoldingType) :
    Store × Nat × Nat × Date :=
  let (s1, migrated, final_date) := merge_reconcile s new_date upload_types
  let (s2, new_count) := save_holdings s1 new_holdings_df final_date
  (s2, migrated, new_count, final_date)

/-- The dictionary returned by calculate_portfolio_summary (portfolio.py
lines 23-51).  It has exactly these seven keys; in particular there is no
crypto subtotal. -/
structure Summary where
  total_value : Rat
  total_invested : Rat
  total_pl : Rat
  total_pl_pct : Rat
  stocks_value : Rat
  mf_value : Rat
  us_stocks_value : Rat
deriving DecidableEq

/-- portfolio.calculate_portfolio_summary (portfolio.py lines 13-51). -/
def calculate_portfolio_summary (holdings_df : List Holding) : Summary :=
  if holdings_df.isEmpty then
    { total_value := 0, total_invested := 0, total_pl := 0, total_pl_pct := 0
      stocks_value := 0, mf_value := 0, us_stocks_value := 0 }
  else
    let total_value := (holdings_df.map (·.current_value)).sum
    let total_invested := (holdings_df.map (·.invested_value)).sum
    let total_pl := (holdings_df.map (·.unrealized_pl)).sum
    { total_value := total_value
      total_invested := total_invested
      total_pl := total_pl
      total_pl_pct := if total_invested > 0 then total_pl / total_invested * 100 else 0
      stocks_value :=
        ((holdings_df.filter (fun h => decide (h.type = HoldingType.stock))).map
          (·.current_value)).sum
      mf_value :=
        ((holdings_df.filter (fun h => decide (h.type = HoldingType.mutual_fund))).map
          (·.current_value)).sum
      us_stocks_value :=
        ((holdings_df.filter (fun h => decide (h.type = HoldingType.us_stock))).map
          (·.current_value)).sum }

/-- The snapshot_data dictionary built by the save handler in 6_Crypto.py
(lines 286-298).  crypto_value is summary.get("crypto_value", 0.0): the
summary dictionary has no such key, so the default 0.0 is always taken. -/
def snapshot_from_summary (final_date : Date) (summary : Summary)
    (nifty sensex : Option Rat) : Snapshot :=
  { snapshot_date := final_date
    total_value := summary.total_value
    stocks_value := summary.stocks_value
    mf_value := summary.mf_value
    us_stocks_value := summary.us_stocks_value
    crypto_value := 0
    total_invested := summary.total_invested
    total_pl := summary.total_pl
    total_pl_pct := summary.total_pl_pct
    benchmark_nifty := nifty
    benchmark_sensex := sensex }

/-- One upload as performed by the save handler in 6_Crypto.py (lines
274-299): merge the batch, fetch all holdings now at final_date, summarize
them, and save the recomputed snapshot row.  Benchmark values come from the
external oracle and are passed in as plain values.  Returns the new store
and merge_holdings_within_month's result triple. -/
def upload (s : Store) (new_date : Date) (save_df : List HoldingRow)
    (upload_types : List HoldingType) (nifty sensex : Option Rat) :
    Store × Nat × Nat × Date :=
  let r := merge_holdings_within_month s new_date save_df upload_types
  let s1 := r.1
  let final_date := r.2.2.2
  let all_holdings_df := get_holdings s1 final_date
  let summary := calculate_portfolio_summary all_holdings_df
  let snap := snapshot_from_summary final_date summary nifty sensex
  (save_snapshot s1 snap, r.2.1, r.2.2.1, final_date)

/-- The arguments of one upload event (one execution of the save handler). -/
structure UploadCmd where
  date : Date
  rows : List HoldingRow
  types : List HoldingType
  nifty : Option Rat
  sensex : Option Rat
deriving DecidableEq

/-- Run one upload, keeping only the store. -/
def applyUpload (s : Store) (c : UploadCmd) : Store :=
  (upload s c.date c.rows c.types c.nifty c.sensex).1

/-- Run a sequence of uploads starting from the empty database. -/
def runUploads (cmds : List UploadCmd) : Store :=
  cmds.foldl applyUpload emptyStore

/-- Sum of current_value over the holdings stored at a date. -/
def holdingsTotalAt (s : Store) (d : Date) : Rat :=
  ((get_holdings s d).map (·.current_value)).sum

/-- Number of Snapshot rows at a date. -/
def snapshotCountAt (s : Store) (d : Date) : Nat :=
  s.snapshots.countP (fun sn => decide (sn.snapshot_date = d))

/-- The per-type subtotal the specification requires of the Summary
Aggregator: sum of current_value over the holdings of one type. -/
def value_by_type (hs : List Holding) (t : HoldingType) : Rat :=
  ((hs.filter (fun h => decide (h.type = t))).map (·.current_value)).sum

/-- The cross-table invariant of the specification, as an inductive
invariant over the store: snapshot dates are calendar-valid, every holding
date carries a snapshot, no two snapshot rows share a calendar month, and
each snapshot total equals the sum of current_value of its holdings. -/
structure WellFormed (s : Store) : Prop where
  valid : ∀ sn ∈ s.snapshots, validDate sn.snapshot_date
  hasSnap : ∀ h ∈ s.holdings, ∃ sn ∈ s.snapshots, sn.snapshot_date = h.snapshot_date
  monthsOnce : s.snapshots.Pairwise (fun a b => ¬ sameMonth a.snapshot_date b.snapshot_date)
  totals : ∀ sn ∈ s.snapshots, sn.total_value = holdingsTotalAt s sn.snapshot_date

/-! Concrete sample data for instantiating the theorems. -/

def jan5 : Date := { year := 2025, month := 1, day := 5 }

def jan15 : Date := { year := 2025, month := 1, day := 15 }

def jan20 : Date := { year := 2025, month := 1, day := 20 }

def dec3 : Date := { year := 2024, month := 12, day := 3 }

def dec15 : Date := { year := 2024, month := 12, day := 15 }

def jan2 : Date := { year := 2025, month := 1, day := 2 }

def stockRow : HoldingRow :=
  { type := HoldingType.stock, name := "RELIANCE", symbol := some "RELIANCE"
    isin := none, units := 10, avg_price := 90, current_price := 100
    invested_value := 900, current_value := 1000, unrealized_pl := 100
    unrealized_pl_pct := 10 }

def mfRow : HoldingRow :=
  { type := HoldingType.mutual_fund, name := "UTI Nifty", symbol := none
    isin := some "INF789", units := 50, avg_price := 10, current_price := 12
    invested_value := 500, current_value := 600, unrealized_pl := 100
    unrealized_pl_pct := 20 }

def cryptoRow : HoldingRow :=
  { type := HoldingType.crypto, name := "ETH", symbol := some "ETH"
    isin := none, units := 1, avg_price := 0, current_price := 100
    invested_value := 0, current_value := 100, unrealized_pl := 0
    unrealized_pl_pct := 0 }

def mkSnapshot (d : Date) (tv : Rat) : Snapshot :=
  { snapshot_date := d, total_value := tv, stocks_value := 0, mf_value := 0
    us_stocks_value := 0, crypto_value := 0, total_invested := 0
    total_pl := 0, total_pl_pct := 0, benchmark_nifty := none
    benchmark_sensex := none }

/-- A store holding a stock and a mutual-fund position dated Jan 5 2025,
with the matching snapshot row. -/
def storeJan5 : Store :=
  { holdings := [stockRow.toHolding jan5, mfRow.toHolding jan5]
    snapshots := [mkSnapshot jan5 1600] }

/-- A store with snapshot rows dated Dec 3 2024 and Jan 2 2025. -/
def storeDec : Store :=
  { holdings := [], snapshots := [mkSnapshot dec3 0, mkSnapshot jan2 0] }

/-- A store holding a stock position dated Jan 5 2025 with no snapshot row
recorded for it. -/
def storeNoSnap : Store :=
  { holdings := [stockRow.toHolding jan5], snapshots := [] }

/-- Upload event: stock and mutual-fund batch dated Jan 5 2025. -/
def cmdJan5 : UploadCmd :=
  { date := jan5, rows := [stockRow, mfRow]
    types := [HoldingType.stock, HoldingType.mutual_fund]
    nifty := none, sensex := none }

/-- Upload event: crypto batch dated Jan 20 2025. -/
def cmdJan20 : UploadCmd :=
  { date := jan20, rows := [cryptoRow], types := [HoldingType.crypto]
    nifty := none, sensex := none }

def cmds2 : List UploadCmd := [cmdJan5, cmdJan20]

/-- The store produced by uploading one crypto position worth 100 into the
empty store via the 6_Crypto.py save handler. -/
def cryptoUpload : Store :=
  (upload emptyStore jan15 [cryptoRow] [HoldingType.crypto] none none).1

/-! ### Order lemmas on dates -/

theorem Date.le_refl (a : Date) : Date.le a a := Or.inr rfl

theorem Date.le_of_lt {a b : Date} (h : Date.lt a b) : Date.le a b := Or.inl h

theorem Date.not_lt {a b : Date} : ¬ Date.lt a b ↔ Date.le b a := by
  obtain ⟨ay, am, ad⟩ := a
  obtain ⟨by_, bm, bd⟩ := b
  simp only [Date.lt, Date.le, Date.mk.injEq]
  omega

theorem Date.lt_irrefl (a : Date) : ¬ Date.lt a a := by
  obtain ⟨ay, am, ad⟩ := a
  simp only [Date.lt]
  omega

theorem Date.ne_of_lt {a b : Date} (h : Date.lt a b) : a ≠ b := by
  rintro rfl
  exact Date.lt_irrefl a h

theorem Date.le_trans {a b c : Date} (h1 : Date.le a b) (h2 : Date.le b c) :
    Date.le a c := by
  obtain ⟨ay, am, ad⟩ := a
  obtain ⟨by_, bm, bd⟩ := b
  obtain ⟨cy, cm, cd⟩ := c
  simp only [Date.lt, Date.le, Date.mk.injEq] at h1 h2 ⊢
  omega

theorem dmax_eq_right {a b : Date} (h : Date.lt a b) : dmax a b = b := by
  simp [dmax, h]

theorem dmax_eq_left {a b : Date} (h : ¬ Date.lt a b) : dmax a b = a := by
  simp [dmax, h]

theorem dmax_ne_iff {a b : Date} : a ≠ dmax a b ↔ Date.lt a b := by
  constructor
  · intro h
    by_contra hlt
    exact h (dmax_eq_left hlt).symm
  · intro h
    rw [dmax_eq_right h]
    exact Date.ne_of_lt h

/-- The month-window test of find_snapshot_in_month is, on calendar-valid
dates, exactly the same-calendar-month test; the December case rolls over to
January of the next year. -/
theorem inMonthWindow_iff_sameMonth {t d : Date} (ht : validDate t)
    (hd : validDate d) : inMonthWindow t d ↔ sameMonth t d := by
  obtain ⟨ty, tm, td⟩ := t
  obtain ⟨dy, dm, dd⟩ := d
  simp only [validDate] at ht hd
  by_cases h12 : tm = 12
  · simp only [inMonthWindow, firstOfMonth, firstOfNextMonth, Date.le, Date.lt,
      sameMonth, h12, Date.mk.injEq, if_true]
    omega
  · simp only [inMonthWindow, firstOfMonth, firstOfNextMonth, Date.le, Date.lt,
      sameMonth, h12, Date.mk.injEq, if_false]
    omega

theorem sameMonth_refl (a : Date) : sameMonth a a := ⟨rfl, rfl⟩

theorem sameMonth_symm {a b : Date} (h : sameMonth a b) : sameMonth b a :=
  ⟨h.1.symm, h.2.symm⟩

theorem sameMonth_trans {a b c : Date} (h1 : sameMonth a b)
    (h2 : sameMonth b c) : sameMonth a c :=
  ⟨h1.1.trans h2.1, h1.2.trans h2.2⟩

theorem sameMonth_of_eq {a b : Date} (h : a = b) : sameMonth a b := by
  subst h
  exact sameMonth_refl a

/-! ### Characterization of find_snapshot_in_month -/

theorem pickLatest_eq_none {l : List Snapshot} : pickLatest l = none ↔ l = [] := by
  cases l with
  | nil => simp [pickLatest]
  | cons sn rest =>
    simp only [pickLatest]
    cases pickLatest rest with
    | none => simp
    | some b =>
      constructor
      · intro h
        by_cases hc : Date.lt sn.snapshot_date b.snapshot_date <;> simp [hc] at h
      · intro h
        exact absurd h (List.cons_ne_nil sn rest)

theorem pickLatest_mem {l : List Snapshot} {sn : Snapshot}
    (h : pickLatest l = some sn) : sn ∈ l := by
  induction l with
  | nil => simp [pickLatest] at h
  | cons hd rest ih =>
    simp only [pickLatest] at h
    cases hrec : pickLatest rest with
    | none =>
      rw [hrec] at h
      simp at h
      simp [h]
    | some b =>
      rw [hrec] at h
      by_cases hc : Date.lt hd.snapshot_date b.snapshot_date
      · simp [hc] at h
        subst h
        exact List.mem_cons_of_mem hd (ih hrec)
      · simp [hc] at h
        simp [h]

theorem pickLatest_max {l : List Snapshot} {sn : Snapshot}
    (h : pickLatest l = some sn) :
    ∀ x ∈ l, Date.le x.snapshot_date sn.snapshot_date := by
  induction l generalizing sn with
  | nil => simp [pickLatest] at h
  | cons hd rest ih =>
    simp only [pickLatest] at h
    cases hrec : pickLatest rest with
    | none =>
      rw [hrec] at h
      simp at h
      subst h
      intro x hx
      rcases List.mem_cons.mp hx with h1 | h1
      · subst h1; exact Date.le_refl _
      · rw [pickLatest_eq_none.mp hrec] at h1
        simp at h1
    | some b =>
      rw [hrec] at h
      by_cases hc : Date.lt hd.snapshot_date b.snapshot_date
      · simp [hc] at h
        subst h
        intro x hx
        rcases List.mem_cons.mp hx with h1 | h1
        · subst h1; exact Date.le_of_lt hc
        · exact ih hrec x h1
      · simp [hc] at h
        subst h
        intro x hx
        rcases List.mem_cons.mp hx with h1 | h1
        · subst h1; exact Date.le_refl _
        · exact Date.le_trans (ih hrec x h1) (Date.not_lt.mp hc)

theorem find_snapshot_in_month_eq_none {s : Store} {t : Date} :
    find_snapshot_in_month s t = none ↔
      ∀ sn ∈ s.snapshots, ¬ inMonthWindow t sn.snapshot_date := by
  unfold find_snapshot_in_month
  cases hp : pickLatest (s.snapshots.filter
      (fun sn => decide (inMonthWindow t sn.snapshot_date))) with
  | some sn =>
    simp only
    constructor
    · intro h; simp at h
    · intro h
      have hmem := pickLatest_mem hp
      rw [List.mem_filter] at hmem
      exact absurd (of_decide_eq_true hmem.2) (h sn hmem.1)
  | none =>
    simp only
    rw [pickLatest_eq_none, List.filter_eq_nil_iff] at hp
    constructor
    · intro _ sn hsn hw
      exact absurd (decide_eq_true hw) (by simpa using hp sn hsn)
    · intro _; trivial

theorem find_snapshot_in_month_eq_some {s : Store} {t d : Date} {sn : Snapshot}
    (h : find_snapshot_in_month s t = some (d, sn)) :
    sn ∈ s.snapshots ∧ sn.snapshot_date = d ∧ inMonthWindow t d ∧
      ∀ other ∈ s.snapshots, inMonthWindow t other.snapshot_date →
        Date.le other.snapshot_date d := by
  unfold find_snapshot_in_month at h
  cases hp : pickLatest (s.snapshots.filter
      (fun x => decide (inMonthWindow t x.snapshot_date))) with
  | none => rw [hp] at h; simp at h
  | some b =>
    rw [hp] at h
    simp only [Option.some.injEq, Prod.mk.injEq] at h
    obtain ⟨hd, hb⟩ := h
    subst hb
    have hmem := pickLatest_mem hp
    rw [List.mem_filter] at hmem
    refine ⟨hmem.1, hd, hd ▸ of_decide_eq_true hmem.2, ?_⟩
    intro other hother hw
    have := pickLatest_max hp other (List.mem_filter.mpr ⟨hother, decide_eq_true hw⟩)
    exact hd ▸ this

/-! ### How each repository operation changes the holdings at a date -/

theorem toHolding_snapshot_date (r : HoldingRow) (d : Date) :
    (r.toHolding d).snapshot_date = d := rfl

theorem get_holdings_save_same (s : Store) (df : List HoldingRow) (d : Date) :
    get_holdings (save_holdings s df d).1 d =
      get_holdings s d ++ df.map (·.toHolding d) := by
  simp only [get_holdings, save_holdings, List.filter_append]
  congr 1
  rw [List.filter_eq_self]
  intro h hmem
  rw [List.mem_map] at hmem
  obtain ⟨r, _, rfl⟩ := hmem
  simp [toHolding_snapshot_date]

theorem get_holdings_save_ne (s : Store) (df : List HoldingRow) (d d' : Date)
    (h : d' ≠ d) :
    get_holdings (save_holdings s df d).1 d' = get_holdings s d' := by
  simp only [get_holdings, save_holdings, List.filter_append]
  have hnil : (df.map (·.toHolding d)).filter
      (fun x => decide (x.snapshot_date = d')) = [] := by
    rw [List.filter_eq_nil_iff]
    intro x hmem
    rw [List.mem_map] at hmem
    obtain ⟨r, _, rfl⟩ := hmem
    simp [toHolding_snapshot_date]
    exact Ne.symm h
  rw [hnil, List.append_nil]

theorem get_holdings_delete_snapshot_same (s : Store) (od : Date) :
    get_holdings (delete_snapshot s od) od = [] := by
  simp only [get_holdings, delete_snapshot, List.filter_filter]
  rw [List.filter_eq_nil_iff]
  intro x _
  by_cases hx : x.snapshot_date = od <;> simp [hx]

theorem get_holdings_delete_snapshot_ne (s : Store) (od d : Date) (h : d ≠ od) :
    get_holdings (delete_snapshot s od) d = get_holdings s d := by
  simp only [get_holdings, delete_snapshot, List.filter_filter]
  apply List.filter_congr
  intro x _
  by_cases hx : x.snapshot_date = d
  · simp [hx, h]
  · simp [hx]

theorem get_holdings_delete_types_ne (s : Store) (od d : Date)
    (ts : List HoldingType) (h : d ≠ od) :
    get_holdings (delete_holdings_by_type s od ts).1 d = get_holdings s d := by
  simp only [get_holdings, delete_holdings_by_type, List.filter_filter]
  apply List.filter_congr
  intro x _
  by_cases hx : x.snapshot_date = d
  · simp [hx, h]
  · simp [hx]

theorem get_holdings_delete_types_same (s : Store) (od : Date)
    (ts : List HoldingType) :
    get_holdings (delete_holdings_by_type s od ts).1 od =
      (get_holdings s od).filter (fun h => !decide (h.type ∈ ts)) := by
  simp only [get_holdings, delete_holdings_by_type, List.filter_filter]
  apply List.filter_congr
  intro x _
  by_cases hx : x.snapshot_date = od <;> by_cases hty : x.type ∈ ts <;>
    simp [hx, hty]

theorem migrateStep_none {od nd : Date} {ts : List HoldingType} {h : Holding}
    (hd : h.snapshot_date = od) (hty : h.type ∈ ts) :
    migrateStep od nd ts h = none := by
  simp [migrateStep, hd, hty]

theorem migrateStep_redate {od nd : Date} {ts : List HoldingType} {h : Holding}
    (hd : h.snapshot_date = od) (hty : h.type ∉ ts) :
    migrateStep od nd ts h = some { h with snapshot_date := nd } := by
  simp [migrateStep, hd, hty]

theorem migrateStep_keep {od nd : Date} {ts : List HoldingType} {h : Holding}
    (hd : h.snapshot_date ≠ od) :
    migrateStep od nd ts h = some h := by
  simp [migrateStep, hd]

theorem migrate_filter_old (l : List Holding) (od nd : Date)
    (ts : List HoldingType) (hne : od ≠ nd) :
    (l.filterMap (migrateStep od nd ts)).filter
      (fun x => decide (x.snapshot_date = od)) = [] := by
  induction l with
  | nil => simp
  | cons h rest ih =>
    by_cases hd : h.snapshot_date = od
    · by_cases hty : h.type ∈ ts
      · rw [List.filterMap_cons_none (migrateStep_none hd hty)]
        exact ih
      · rw [List.filterMap_cons_some (migrateStep_redate hd hty)]
        rw [List.filter_cons, if_neg (by simpa using Ne.symm hne)]
        exact ih
    · rw [List.filterMap_cons_some (migrateStep_keep hd)]
      rw [List.filter_cons, if_neg (by simpa using hd)]
      exact ih

theorem migrate_filter_other (l : List Holding) (od nd d : Date)
    (ts : List HoldingType) (hdo : d ≠ od) (hdn : d ≠ nd) :
    (l.filterMap (migrateStep od nd ts)).filter
        (fun x => decide (x.snapshot_date = d)) =
      l.filter (fun x => decide (x.snapshot_date = d)) := by
  induction l with
  | nil => simp
  | cons h rest ih =>
    by_cases hd : h.snapshot_date = od
    · have hnotd : ¬ (h.snapshot_date = d) := fun hc => hdo (hc ▸ hd ▸ rfl)
      by_cases hty : h.type ∈ ts
      · rw [List.filterMap_cons_none (migrateStep_none hd hty)]
        rw [ih, List.filter_cons, if_neg (by simpa using hnotd)]
      · rw [List.filterMap_cons_some (migrateStep_redate hd hty)]
        rw [List.filter_cons, if_neg (by simpa using Ne.symm hdn)]
        rw [ih, List.filter_cons, if_neg (by simpa using hnotd)]
    · rw [List.filterMap_cons_some (migrateStep_keep hd)]
      rw [List.filter_cons, List.filter_cons, ih]

theorem migrate_filter_new (l : List Holding) (od nd : Date)
    (ts : List HoldingType)
    (hno : ∀ h ∈ l, h.snapshot_date ≠ nd) :
    (l.filterMap (migrateStep od nd ts)).filter
        (fun x => decide (x.snapshot_date = nd)) =
      (l.filter (fun x => decide (x.snapshot_date = od ∧ x.type ∉ ts))).map
        (fun h => { h with snapshot_date := nd }) := by
  induction l with
  | nil => simp
  | cons h rest ih =>
    have hno' : ∀ x ∈ rest, x.snapshot_date ≠ nd :=
      fun x hx => hno x (List.mem_cons_of_mem h hx)
    have hhno : h.snapshot_date ≠ nd := hno h (List.mem_cons_self h rest)
    by_cases hd : h.snapshot_date = od
    · by_cases hty : h.type ∈ ts
      · rw [List.filterMap_cons_none (migrateStep_none hd hty)]
        rw [ih hno', List.filter_cons, if_neg (by simp [hd, hty])]
      · rw [List.filterMap_cons_some (migrateStep_redate hd hty)]
        rw [List.filter_cons, if_pos (by simp)]
        rw [List.filter_cons, if_pos (by simp [hd, hty])]
        rw [List.map_cons, ih hno']
    · rw [List.filterMap_cons_some (migrateStep_keep hd)]
      rw [List.filter_cons, if_neg (by simpa using hhno)]
      rw [List.filter_cons, if_neg (by simp [hd])]
      exact ih hno'

theorem mem_migrate_cases {l : List Holding} {od nd : Date}
    {ts : List HoldingType} {x : Holding}
    (hx : x ∈ l.filterMap (migrateStep od nd ts)) :
    (x ∈ l ∧ x.snapshot_date ≠ od) ∨
      (∃ h0 ∈ l, h0.snapshot_date = od ∧ h0.type ∉ ts ∧
        x = { h0 with snapshot_date := nd }) := by
  rw [List.mem_filterMap] at hx
  obtain ⟨a, ha, hstep⟩ := hx
  by_cases hd : a.snapshot_date = od
  · by_cases hty : a.type ∈ ts
    · rw [migrateStep_none hd hty] at hstep
      exact absurd hstep (by simp)
    · rw [migrateStep_redate hd hty] at hstep
      exact Or.inr ⟨a, ha, hd, hty, (Option.some.inj hstep).symm⟩
  · rw [migrateStep_keep hd] at hstep
    have hax := Option.some.inj hstep
    exact Or.inl ⟨hax ▸ ha, hax ▸ hd⟩

/-! ### Explicit forms of merge_holdings_within_month in its three scenarios -/

theorem merge_eq_none {s : Store} {new_date : Date}
    (df : List HoldingRow) (ts : List HoldingType)
    (h : find_snapshot_in_month s new_date = none) :
    merge_holdings_within_month s new_date df ts =
      ({ s with holdings := s.holdings ++ df.map (·.toHolding new_date) },
       0, df.length, new_date) := by
  simp [merge_holdings_within_month, merge_reconcile, h, save_holdings]

theorem merge_eq_some_lt {s : Store} {new_date old_date : Date} {sn : Snapshot}
    (df : List HoldingRow) (ts : List HoldingType)
    (h : find_snapshot_in_month s new_date = some (old_date, sn))
    (hlt : Date.lt old_date new_date) :
    merge_holdings_within_month s new_date df ts =
      ({ holdings :=
          ((s.holdings.filterMap (migrateStep old_date new_date ts)).filter
            (fun x => !decide (x.snapshot_date = old_date))) ++
            df.map (·.toHolding new_date)
         snapshots :=
          s.snapshots.filter (fun x => !decide (x.snapshot_date = old_date)) },
       s.holdings.countP
         (fun x => decide (x.snapshot_date = old_date ∧ x.type ∉ ts)),
       df.length, new_date) := by
  have hmax : dmax old_date new_date = new_date := dmax_eq_right hlt
  have hne : old_date ≠ new_date := Date.ne_of_lt hlt
  simp [merge_holdings_within_month, merge_reconcile, h, hmax, hne,
    migrate_holdings_to_new_date, delete_snapshot, save_holdings]

theorem merge_eq_some_ge {s : Store} {new_date old_date : Date} {sn : Snapshot}
    (df : List HoldingRow) (ts : List HoldingType)
    (h : find_snapshot_in_month s new_date = some (old_date, sn))
    (hge : ¬ Date.lt old_date new_date) :
    merge_holdings_within_month s new_date df ts =
      ({ holdings :=
          (s.holdings.filter
            (fun x => !decide (x.snapshot_date = old_date ∧ x.type ∈ ts))) ++
            df.map (·.toHolding old_date)
         snapshots :=
          s.snapshots.filter (fun x => !decide (x.snapshot_date = old_date)) },
       0, df.length, old_date) := by
  have hmax : dmax old_date new_date = old_date := dmax_eq_left hge
  simp [merge_holdings_within_month, merge_reconcile, h, hmax,
    delete_holdings_by_type, delete_snapshot_row, save_holdings]

/-! ### The summary fields as sums, and the upload scenarios -/

theorem summary_total_value (hs : List Holding) :
    (calculate_portfolio_summary hs).total_value =
      (hs.map (·.current_value)).sum := by
  unfold calculate_portfolio_summary
  split_ifs with hemp
  · rw [List.isEmpty_iff] at hemp
    simp [hemp]
  · rfl

theorem summary_total_invested (hs : List Holding) :
    (calculate_portfolio_summary hs).total_invested =
      (hs.map (·.invested_value)).sum := by
  unfold calculate_portfolio_summary
  split_ifs with hemp
  · rw [List.isEmpty_iff] at hemp
    simp [hemp]
  · rfl

theorem summary_total_pl (hs : List Holding) :
    (calculate_portfolio_summary hs).total_pl =
      (hs.map (·.unrealized_pl)).sum := by
  unfold calculate_portfolio_summary
  split_ifs with hemp
  · rw [List.isEmpty_iff] at hemp
    simp [hemp]
  · rfl

theorem summary_total_pl_pct (hs : List Holding) :
    (calculate_portfolio_summary hs).total_pl_pct =
      if (hs.map (·.invested_value)).sum > 0 then
        (hs.map (·.unrealized_pl)).sum / (hs.map (·.invested_value)).sum * 100
      else 0 := by
  unfold calculate_portfolio_summary
  by_cases hemp : hs.isEmpty
  · rw [if_pos hemp]
    rw [List.isEmpty_iff] at hemp
    subst hemp
    simp
  · rw [if_neg hemp]

theorem filter_map_toHolding_same (df : List HoldingRow) (d : Date) :
    (df.map (·.toHolding d)).filter (fun x => decide (x.snapshot_date = d)) =
      df.map (·.toHolding d) := by
  rw [List.filter_eq_self]
  intro x hmem
  rw [List.mem_map] at hmem
  obtain ⟨r, _, rfl⟩ := hmem
  simp [toHolding_snapshot_date]

theorem filter_map_toHolding_ne (df : List HoldingRow) (d d' : Date)
    (h : d' ≠ d) :
    (df.map (·.toHolding d)).filter (fun x => decide (x.snapshot_date = d')) =
      [] := by
  rw [List.filter_eq_nil_iff]
  intro x hmem
  rw [List.mem_map] at hmem
  obtain ⟨r, _, rfl⟩ := hmem
  simp [toHolding_snapshot_date]
  exact Ne.symm h

theorem upload_eq_none {s : Store} {new_date : Date}
    (df : List HoldingRow) (ts : List HoldingType) (nf sx : Option Rat)
    (h : find_snapshot_in_month s new_date = none) :
    upload s new_date df ts nf sx =
      ({ holdings := s.holdings ++ df.map (·.toHolding new_date)
         snapshots := s.snapshots ++
           [snapshot_from_summary new_date
             (calculate_portfolio_summary
               (get_holdings s new_date ++ df.map (·.toHolding new_date)))
             nf sx] },
       0, df.length, new_date) := by
  unfold upload
  rw [merge_eq_none df ts h]
  simp only [save_snapshot, get_holdings, List.filter_append,
    filter_map_toHolding_same]

theorem upload_eq_some_lt {s : Store} {new_date old_date : Date} {sn : Snapshot}
    (df : List HoldingRow) (ts : List HoldingType) (nf sx : Option Rat)
    (h : find_snapshot_in_month s new_date = some (old_date, sn))
    (hlt : Date.lt old_date new_date)
    (hnone : ∀ x ∈ s.holdings, x.snapshot_date ≠ new_date) :
    upload s new_date df ts nf sx =
      ({ holdings :=
          ((s.holdings.filterMap (migrateStep old_date new_date ts)).filter
            (fun x => !decide (x.snapshot_date = old_date))) ++
            df.map (·.toHolding new_date)
         snapshots :=
          s.snapshots.filter (fun x => !decide (x.snapshot_date = old_date)) ++
           [snapshot_from_summary new_date
             (calculate_portfolio_summary
               (((s.holdings.filter
                   (fun x => decide (x.snapshot_date = old_date ∧ x.type ∉ ts))).map
                 (fun x => { x with snapshot_date := new_date })) ++
                df.map (·.toHolding new_date)))
             nf sx] },
       s.holdings.countP
         (fun x => decide (x.snapshot_date = old_date ∧ x.type ∉ ts)),
       df.length, new_date) := by
  have hne : old_date ≠ new_date := Date.ne_of_lt hlt
  unfold upload
  rw [merge_eq_some_lt df ts h hlt]
  have hmid :
      (((s.holdings.filterMap (migrateStep old_date new_date ts)).filter
          (fun x => !decide (x.snapshot_date = old_date))).filter
        (fun x => decide (x.snapshot_date = new_date))) =
      ((s.holdings.filter
          (fun x => decide (x.snapshot_date = old_date ∧ x.type ∉ ts))).map
        (fun x => { x with snapshot_date := new_date })) := by
    rw [List.filter_filter]
    have hcong :
        ((s.holdings.filterMap (migrateStep old_date new_date ts)).filter
          (fun x => decide (x.snapshot_date = new_date) &&
            !decide (x.snapshot_date = old_date))) =
        ((s.holdings.filterMap (migrateStep old_date new_date ts)).filter
          (fun x => decide (x.snapshot_date = new_date))) := by
      apply List.filter_congr
      intro x _
      by_cases hx : x.snapshot_date = new_date
      · simp [hx, Ne.symm hne]
      · simp [hx]
    rw [hcong]
    exact migrate_filter_new s.holdings old_date new_date ts hnone
  simp only [save_snapshot, get_holdings, List.filter_append,
    filter_map_toHolding_same, hmid]

theorem upload_eq_some_ge {s : Store} {new_date old_date : Date} {sn : Snapshot}
    (df : List HoldingRow) (ts : List HoldingType) (nf sx : Option Rat)
    (h : find_snapshot_in_month s new_date = some (old_date, sn))
    (hge : ¬ Date.lt old_date new_date) :
    upload s new_date df ts nf sx =
      ({ holdings :=
          (s.holdings.filter
            (fun x => !decide (x.snapshot_date = old_date ∧ x.type ∈ ts))) ++
            df.map (·.toHolding old_date)
         snapshots :=
          s.snapshots.filter (fun x => !decide (x.snapshot_date = old_date)) ++
           [snapshot_from_summary old_date
             (calculate_portfolio_summary
               ((s.holdings.filter
                   (fun x => decide (x.snapshot_date = old_date ∧ x.type ∉ ts))) ++
                df.map (·.toHolding old_date)))
             nf sx] },
       0, df.length, old_date) := by
  unfold upload
  rw [merge_eq_some_ge df ts h hge]
  have hmid :
      ((s.holdings.filter
          (fun x => !decide (x.snapshot_date = old_date ∧ x.type ∈ ts))).filter
        (fun x => decide (x.snapshot_date = old_date))) =
      (s.holdings.filter
        (fun x => decide (x.snapshot_date = old_date ∧ x.type ∉ ts))) := by
    rw [List.filter_filter]
    apply List.filter_congr
    intro x _
    by_cases hx : x.snapshot_date = old_date <;>
      by_cases hty : x.type ∈ ts <;> simp [hx, hty]
  simp only [save_snapshot, get_holdings, List.filter_append,
    filter_map_toHolding_same, hmid]

/-! ### Consequences of the WellFormed invariant -/

theorem pairwise_eq_of_not_rel {α : Type} {R : α → α → Prop} {l : List α}
    (hp : l.Pairwise R) {a b : α} (ha : a ∈ l) (hb : b ∈ l)
    (hab : ¬ R a b) (hba : ¬ R b a) : a = b := by
  induction l with
  | nil => exact absurd ha (List.not_mem_nil a)
  | cons x rest ih =>
    rcases List.pairwise_cons.mp hp with ⟨hx, hrest⟩
    rcases List.mem_cons.mp ha with rfl | ha'
    · rcases List.mem_cons.mp hb with rfl | hb'
      · rfl
      · exact absurd (hx b hb') hab
    · rcases List.mem_cons.mp hb with rfl | hb'
      · exact absurd (hx a ha') hba
      · exact ih hrest ha' hb'

theorem countP_le_one_of_pairwise {α : Type} {l : List α} {p : α → Bool}
    (hp : l.Pairwise (fun a b => ¬ (p a = true ∧ p b = true))) :
    l.countP p ≤ 1 := by
  induction l with
  | nil => simp [List.countP_nil]
  | cons x rest ih =>
    rcases List.pairwise_cons.mp hp with ⟨hx, hrest⟩
    by_cases hpx : p x = true
    · have hz : rest.countP p = 0 := by
        rw [List.countP_eq_zero]
        intro y hy hpy
        exact hx y hy ⟨hpx, hpy⟩
      rw [List.countP_cons, hz, hpx]
      simp
    · rw [List.countP_cons]
      simp [hpx]
      exact ih hrest

theorem wf_empty : WellFormed emptyStore := by
  constructor <;> simp [emptyStore, holdingsTotalAt, get_holdings]

theorem wf_snapshot_unique {s : Store} (hwf : WellFormed s) {a b : Snapshot}
    (ha : a ∈ s.snapshots) (hb : b ∈ s.snapshots)
    (hm : sameMonth a.snapshot_date b.snapshot_date) : a = b :=
  pairwise_eq_of_not_rel hwf.monthsOnce ha hb (not_not_intro hm)
    (not_not_intro (sameMonth_symm hm))

theorem wf_no_holdings_of_find_none {s : Store} {new_date : Date}
    (hwf : WellFormed s) (hnew : validDate new_date)
    (hnone : find_snapshot_in_month s new_date = none) {d : Date}
    (hm : sameMonth new_date d) : ∀ x ∈ s.holdings, x.snapshot_date ≠ d := by
  intro x hx hxd
  obtain ⟨sn, hsn, hsnd⟩ := hwf.hasSnap x hx
  have hsm : sameMonth new_date sn.snapshot_date :=
    sameMonth_trans hm (sameMonth_of_eq (hxd ▸ hsnd).symm)
  have hw : inMonthWindow new_date sn.snapshot_date :=
    (inMonthWindow_iff_sameMonth hnew (hwf.valid sn hsn)).mpr hsm
  exact (find_snapshot_in_month_eq_none.mp hnone) sn hsn hw

theorem wf_find_some {s : Store} {new_date old_date : Date} {sn : Snapshot}
    (hwf : WellFormed s) (hnew : validDate new_date)
    (hfind : find_snapshot_in_month s new_date = some (old_date, sn)) :
    sn ∈ s.snapshots ∧ sn.snapshot_date = old_date ∧ sameMonth new_date old_date ∧
      ∀ other ∈ s.snapshots, sameMonth new_date other.snapshot_date →
        other = sn := by
  obtain ⟨hmem, hdate, hw, _⟩ := find_snapshot_in_month_eq_some hfind
  have hsm : sameMonth new_date old_date :=
    (inMonthWindow_iff_sameMonth hnew (hdate ▸ hwf.valid sn hmem)).mp hw
  refine ⟨hmem, hdate, hsm, ?_⟩
  intro other hother hom
  exact wf_snapshot_unique hwf hother hmem
    (sameMonth_trans (sameMonth_symm hom) (hdate ▸ hsm))

theorem wf_no_holdings_of_find_some {s : Store} {new_date old_date : Date}
    {sn : Snapshot} (hwf : WellFormed s) (hnew : validDate new_date)
    (hfind : find_snapshot_in_month s new_date = some (old_date, sn))
    {d : Date} (hm : sameMonth new_date d) (hne : d ≠ old_date) :
    ∀ x ∈ s.holdings, x.snapshot_date ≠ d := by
  intro x hx hxd
  obtain ⟨sn', hsn', hsnd⟩ := hwf.hasSnap x hx
  obtain ⟨_, hdate, _, huniq⟩ := wf_find_some hwf hnew hfind
  have : sn' = sn := huniq sn' hsn'
    (sameMonth_trans hm (sameMonth_of_eq (hxd ▸ hsnd).symm))
  exact hne ((hxd ▸ hsnd).symm.trans (this ▸ hdate))

theorem filter_not_date_at {l : List Holding} {old d : Date} (hne : d ≠ old) :
    (l.filter (fun x => !decide (x.snapshot_date = old))).filter
        (fun x => decide (x.snapshot_date = d)) =
      l.filter (fun x => decide (x.snapshot_date = d)) := by
  rw [List.filter_filter]
  apply List.filter_congr
  intro x _
  by_cases hx : x.snapshot_date = d
  · simp [hx, hne]
  · simp [hx]

theorem filter_not_date_at_self {l : List Holding} {old : Date} :
    (l.filter (fun x => !decide (x.snapshot_date = old))).filter
      (fun x => decide (x.snapshot_date = old)) = [] := by
  rw [List.filter_filter, List.filter_eq_nil_iff]
  intro x _
  by_cases hx : x.snapshot_date = old <;> simp [hx]

theorem filter_not_datety_at {l : List Holding} {old d : Date}
    {ts : List HoldingType} (hne : d ≠ old) :
    (l.filter (fun x => !decide (x.snapshot_date = old ∧ x.type ∈ ts))).filter
        (fun x => decide (x.snapshot_date = d)) =
      l.filter (fun x => decide (x.snapshot_date = d)) := by
  rw [List.filter_filter]
  apply List.filter_congr
  intro x _
  by_cases hx : x.snapshot_date = d
  · simp [hx, hne]
  · simp [hx]

theorem wf_after_upload_none {s : Store} {new_date : Date}
    (df : List HoldingRow) (ts : List HoldingType) (nf sx : Option Rat)
    (hwf : WellFormed s) (hnew : validDate new_date)
    (hfind : find_snapshot_in_month s new_date = none) :
    WellFormed (upload s new_date df ts nf sx).1 := by
  have hget0 : get_holdings s new_date = [] := by
    rw [get_holdings, List.filter_eq_nil_iff]
    intro x hx
    simpa using
      wf_no_holdings_of_find_none hwf hnew hfind (sameMonth_refl new_date) x hx
  rw [upload_eq_none df ts nf sx hfind]
  constructor
  · intro sn hsn
    rcases List.mem_append.mp hsn with h1 | h1
    · exact hwf.valid sn h1
    · rw [List.mem_singleton] at h1
      subst h1
      exact hnew
  · intro h hh
    rcases List.mem_append.mp hh with h1 | h1
    · obtain ⟨sn, hsn, hd⟩ := hwf.hasSnap h h1
      exact ⟨sn, List.mem_append_left _ hsn, hd⟩
    · refine ⟨_, List.mem_append_right _ (List.mem_singleton_self _), ?_⟩
      rw [List.mem_map] at h1
      obtain ⟨r, _, rfl⟩ := h1
      rfl
  · rw [List.pairwise_append]
    refine ⟨hwf.monthsOnce, List.pairwise_singleton _ _, ?_⟩
    intro a ha b hb
    rw [List.mem_singleton] at hb
    subst hb
    intro hm
    have hw : inMonthWindow new_date a.snapshot_date :=
      (inMonthWindow_iff_sameMonth hnew (hwf.valid a ha)).mpr (sameMonth_symm hm)
    exact (find_snapshot_in_month_eq_none.mp hfind) a ha hw
  · intro sn hsn
    rcases List.mem_append.mp hsn with h1 | h1
    · have hne : sn.snapshot_date ≠ new_date := by
        intro he
        have hw : inMonthWindow new_date sn.snapshot_date :=
          (inMonthWindow_iff_sameMonth hnew (hwf.valid sn h1)).mpr
            (sameMonth_of_eq he.symm)
        exact (find_snapshot_in_month_eq_none.mp hfind) sn h1 hw
      have heq : holdingsTotalAt
          ({ holdings := s.holdings ++ df.map (·.toHolding new_date)
             snapshots := s.snapshots ++
               [snapshot_from_summary new_date
                 (calculate_portfolio_summary
                   (get_holdings s new_date ++ df.map (·.toHolding new_date)))
                 nf sx] } : Store) sn.snapshot_date =
          holdingsTotalAt s sn.snapshot_date := by
        simp only [holdingsTotalAt, get_holdings, List.filter_append]
        rw [filter_map_toHolding_ne df new_date sn.snapshot_date hne,
          List.append_nil]
      rw [heq]
      exact hwf.totals sn h1
    · rw [List.mem_singleton] at h1
      subst h1
      show (calculate_portfolio_summary
          (get_holdings s new_date ++ df.map (·.toHolding new_date))).total_value = _
      rw [summary_total_value, hget0, List.nil_append]
      simp only [holdingsTotalAt, get_holdings, snapshot_from_summary,
        List.filter_append]
      rw [filter_map_toHolding_same]
      have h0 : (s.holdings.filter
          (fun x => decide (x.snapshot_date = new_date))) = [] := hget0
      rw [h0, List.nil_append]

theorem migrated_filter_at_new (l : List Holding) (old_date new_date : Date)
    (ts : List HoldingType) (hne : old_date ≠ new_date)
    (hnone : ∀ x ∈ l, x.snapshot_date ≠ new_date) :
    ((l.filterMap (migrateStep old_date new_date ts)).filter
        (fun x => !decide (x.snapshot_date = old_date))).filter
      (fun x => decide (x.snapshot_date = new_date)) =
      (l.filter (fun x => decide (x.snapshot_date = old_date ∧ x.type ∉ ts))).map
        (fun x => { x with snapshot_date := new_date }) := by
  rw [filter_not_date_at (Ne.symm hne)]
  exact migrate_filter_new l old_date new_date ts hnone

theorem deleted_filter_at_old (l : List Holding) (old_date : Date)
    (ts : List HoldingType) :
    (l.filter (fun x => !decide (x.snapshot_date = old_date ∧ x.type ∈ ts))).filter
        (fun x => decide (x.snapshot_date = old_date)) =
      l.filter (fun x => decide (x.snapshot_date = old_date ∧ x.type ∉ ts)) := by
  rw [List.filter_filter]
  apply List.filter_congr
  intro x _
  by_cases hx : x.snapshot_date = old_date <;>
    by_cases hty : x.type ∈ ts <;> simp [hx, hty]

theorem wf_after_upload_lt {s : Store} {new_date old_date : Date} {sn : Snapshot}
    (df : List HoldingRow) (ts : List HoldingType) (nf sx : Option Rat)
    (hwf : WellFormed s) (hnew : validDate new_date)
    (hfind : find_snapshot_in_month s new_date = some (old_date, sn))
    (hlt : Date.lt old_date new_date) :
    WellFormed (upload s new_date df ts nf sx).1 := by
  obtain ⟨hsnmem, hsndate, hsm, huniq⟩ := wf_find_some hwf hnew hfind
  have hne : old_date ≠ new_date := Date.ne_of_lt hlt
  have hnone : ∀ x ∈ s.holdings, x.snapshot_date ≠ new_date :=
    wf_no_holdings_of_find_some hwf hnew hfind (sameMonth_refl new_date)
      (Ne.symm hne)
  have hmemSf : ∀ a ∈ s.snapshots.filter
      (fun x => !decide (x.snapshot_date = old_date)),
      a ∈ s.snapshots ∧ a.snapshot_date ≠ old_date ∧ a.snapshot_date ≠ new_date := by
    intro a ha
    rw [List.mem_filter] at ha
    have hao : a.snapshot_date ≠ old_date := by simpa using ha.2
    refine ⟨ha.1, hao, ?_⟩
    intro hanew
    have : a = sn := huniq a ha.1 (sameMonth_of_eq hanew.symm)
    exact hao (this ▸ hsndate)
  rw [upload_eq_some_lt df ts nf sx hfind hlt hnone]
  constructor
  · intro x hx
    rcases List.mem_append.mp hx with h1 | h1
    · exact hwf.valid x (hmemSf x h1).1
    · rw [List.mem_singleton] at h1
      subst h1
      exact hnew
  · intro h hh
    rcases List.mem_append.mp hh with h1 | h1
    · rw [List.mem_filter] at h1
      have hho : h.snapshot_date ≠ old_date := by simpa using h1.2
      rcases mem_migrate_cases h1.1 with ⟨hmem, _⟩ | ⟨h0, hm0, hd0, hty0, hred⟩
      · obtain ⟨sn', hsn', hsnd'⟩ := hwf.hasSnap h hmem
        refine ⟨sn', List.mem_append_left _ ?_, hsnd'⟩
        rw [List.mem_filter]
        refine ⟨hsn', ?_⟩
        simp
        intro hc
        exact hho (hsnd'.symm.trans hc)
      · refine ⟨_, List.mem_append_right _ (List.mem_singleton_self _), ?_⟩
        subst hred
        rfl
    · refine ⟨_, List.mem_append_right _ (List.mem_singleton_self _), ?_⟩
      rw [List.mem_map] at h1
      obtain ⟨r, _, rfl⟩ := h1
      rfl
  · rw [List.pairwise_append]
    refine ⟨hwf.monthsOnce.filter _, List.pairwise_singleton _ _, ?_⟩
    intro a ha b hb
    rw [List.mem_singleton] at hb
    subst hb
    intro hm
    obtain ⟨hamem, hao, _⟩ := hmemSf a ha
    have : a = sn := huniq a hamem (sameMonth_symm hm)
    exact hao (this ▸ hsndate)
  · intro x hx
    rcases List.mem_append.mp hx with h1 | h1
    · obtain ⟨hamem, hao, han⟩ := hmemSf x h1
      rw [hwf.totals x hamem]
      simp only [holdingsTotalAt, get_holdings, List.filter_append]
      rw [filter_map_toHolding_ne df new_date x.snapshot_date han,
        List.append_nil, filter_not_date_at hao,
        migrate_filter_other s.holdings old_date new_date x.snapshot_date ts
          hao han]
    · rw [List.mem_singleton] at h1
      subst h1
      show (calculate_portfolio_summary _).total_value = _
      rw [summary_total_value]
      simp only [holdingsTotalAt, get_holdings, snapshot_from_summary,
        List.filter_append]
      rw [filter_map_toHolding_same,
        migrated_filter_at_new s.holdings old_date new_date ts hne hnone]

theorem wf_after_upload_ge {s : Store} {new_date old_date : Date} {sn : Snapshot}
    (df : List HoldingRow) (ts : List HoldingType) (nf sx : Option Rat)
    (hwf : WellFormed s) (hnew : validDate new_date)
    (hfind : find_snapshot_in_month s new_date = some (old_date, sn))
    (hge : ¬ Date.lt old_date new_date) :
    WellFormed (upload s new_date df ts nf sx).1 := by
  obtain ⟨hsnmem, hsndate, hsm, huniq⟩ := wf_find_some hwf hnew hfind
  have hvold : validDate old_date := hsndate ▸ hwf.valid sn hsnmem
  have hmemSf : ∀ a ∈ s.snapshots.filter
      (fun x => !decide (x.snapshot_date = old_date)),
      a ∈ s.snapshots ∧ a.snapshot_date ≠ old_date := by
    intro a ha
    rw [List.mem_filter] at ha
    exact ⟨ha.1, by simpa using ha.2⟩
  rw [upload_eq_some_ge df ts nf sx hfind hge]
  constructor
  · intro x hx
    rcases List.mem_append.mp hx with h1 | h1
    · exact hwf.valid x (hmemSf x h1).1
    · rw [List.mem_singleton] at h1
      subst h1
      exact hvold
  · intro h hh
    rcases List.mem_append.mp hh with h1 | h1
    · rw [List.mem_filter] at h1
      obtain ⟨sn', hsn', hsnd'⟩ := hwf.hasSnap h h1.1
      by_cases hc : sn'.snapshot_date = old_date
      · refine ⟨_, List.mem_append_right _ (List.mem_singleton_self _), ?_⟩
        show old_date = h.snapshot_date
        exact hc ▸ hsnd'
      · refine ⟨sn', List.mem_append_left _ ?_, hsnd'⟩
        rw [List.mem_filter]
        exact ⟨hsn', by simpa using hc⟩
    · refine ⟨_, List.mem_append_right _ (List.mem_singleton_self _), ?_⟩
      rw [List.mem_map] at h1
      obtain ⟨r, _, rfl⟩ := h1
      rfl
  · rw [List.pairwise_append]
    refine ⟨hwf.monthsOnce.filter _, List.pairwise_singleton _ _, ?_⟩
    intro a ha b hb
    rw [List.mem_singleton] at hb
    subst hb
    intro hm
    obtain ⟨hamem, hao⟩ := hmemSf a ha
    have : a = sn := huniq a hamem (sameMonth_trans hsm (sameMonth_symm hm))
    exact hao (this ▸ hsndate)
  · intro x hx
    rcases List.mem_append.mp hx with h1 | h1
    · obtain ⟨hamem, hao⟩ := hmemSf x h1
      rw [hwf.totals x hamem]
      simp only [holdingsTotalAt, get_holdings, List.filter_append]
      rw [filter_map_toHolding_ne df old_date x.snapshot_date hao,
        List.append_nil, filter_not_datety_at hao]
    · rw [List.mem_singleton] at h1
      subst h1
      show (calculate_portfolio_summary _).total_value = _
      rw [summary_total_value]
      simp only [holdingsTotalAt, get_holdings, snapshot_from_summary,
        List.filter_append]
      rw [filter_map_toHolding_same, deleted_filter_at_old s.holdings old_date ts]

/-- One upload (merge followed by the summarize-and-save handoff) preserves
the cross-table invariant. -/
theorem upload_preserves_wf {s : Store} {new_date : Date}
    (df : List HoldingRow) (ts : List HoldingType) (nf sx : Option Rat)
    (hwf : WellFormed s) (hnew : validDate new_date) :
    WellFormed (upload s new_date df ts nf sx).1 := by
  cases hfind : find_snapshot_in_month s new_date with
  | none => exact wf_after_upload_none df ts nf sx hwf hnew hfind
  | some p =>
    obtain ⟨old_date, sn⟩ := p
    by_cases hlt : Date.lt old_date new_date
    · exact wf_after_upload_lt df ts nf sx hwf hnew hfind hlt
    · exact wf_after_upload_ge df ts nf sx hwf hnew hfind hlt

/-! ### Further helper lemmas for the claims -/

theorem merge_reconcile_eq_lt {s : Store} {new_date old_date : Date}
    {sn : Snapshot} (ts : List HoldingType)
    (h : find_snapshot_in_month s new_date = some (old_date, sn))
    (hlt : Date.lt old_date new_date) :
    merge_reconcile s new_date ts =
      ({ holdings :=
          (s.holdings.filterMap (migrateStep old_date new_date ts)).filter
            (fun x => !decide (x.snapshot_date = old_date))
         snapshots :=
          s.snapshots.filter (fun x => !decide (x.snapshot_date = old_date)) },
       s.holdings.countP
         (fun x => decide (x.snapshot_date = old_date ∧ x.type ∉ ts)),
       new_date) := by
  have hmax : dmax old_date new_date = new_date := dmax_eq_right hlt
  have hne : old_date ≠ new_date := Date.ne_of_lt hlt
  simp [merge_reconcile, h, hmax, hne, migrate_holdings_to_new_date,
    delete_snapshot]

theorem merge_via_reconcile (s : Store) (new_date : Date)
    (df : List HoldingRow) (ts : List HoldingType) :
    merge_holdings_within_month s new_date df ts =
      ((save_holdings (merge_reconcile s new_date ts).1 df
          (merge_reconcile s new_date ts).2.2).1,
       (merge_reconcile s new_date ts).2.1, df.length,
       (merge_reconcile s new_date ts).2.2) := by
  unfold merge_holdings_within_month save_holdings
  rfl

theorem merge_appends_batch (s : Store) (new_date : Date)
    (df : List HoldingRow) (ts : List HoldingType) :
    (merge_holdings_within_month s new_date df ts).2.2.1 = df.length ∧
      ∃ rest, (merge_holdings_within_month s new_date df ts).1.holdings =
        rest ++ df.map
          (·.toHolding (merge_holdings_within_month s new_date df ts).2.2.2) := by
  rw [merge_via_reconcile]
  exact ⟨rfl, (merge_reconcile s new_date ts).1.holdings, rfl⟩

theorem filter_type_map_toHolding_all {df : List HoldingRow} {d : Date}
    {ts : List HoldingType} (hbatch : ∀ r ∈ df, r.type ∈ ts) :
    (df.map (·.toHolding d)).filter (fun h => decide (h.type ∈ ts)) =
      df.map (·.toHolding d) := by
  rw [List.filter_eq_self]
  intro x hx
  rw [List.mem_map] at hx
  obtain ⟨r, hr, rfl⟩ := hx
  simpa using hbatch r hr

theorem filter_type_map_toHolding_none {df : List HoldingRow} {d : Date}
    {ts : List HoldingType} (hbatch : ∀ r ∈ df, r.type ∈ ts) :
    (df.map (·.toHolding d)).filter (fun h => !decide (h.type ∈ ts)) = [] := by
  rw [List.filter_eq_nil_iff]
  intro x hx
  rw [List.mem_map] at hx
  obtain ⟨r, hr, rfl⟩ := hx
  simpa using hbatch r hr

theorem mem_redated_type_not_covered {l : List Holding} {old_date nd : Date}
    {ts : List HoldingType} {x : Holding}
    (hx : x ∈ (l.filter
        (fun y => decide (y.snapshot_date = old_date ∧ y.type ∉ ts))).map
      (fun y => { y with snapshot_date := nd })) : x.type ∉ ts := by
  rw [List.mem_map] at hx
  obtain ⟨y, hy, rfl⟩ := hx
  rw [List.mem_filter] at hy
  have := of_decide_eq_true hy.2
  exact this.2

theorem filter_redated_covered_none {l : List Holding} {old_date nd : Date}
    {ts : List HoldingType} :
    ((l.filter
        (fun y => decide (y.snapshot_date = old_date ∧ y.type ∉ ts))).map
      (fun y => { y with snapshot_date := nd })).filter
        (fun h => decide (h.type ∈ ts)) = [] := by
  rw [List.filter_eq_nil_iff]
  intro x hx
  simpa using mem_redated_type_not_covered hx

theorem filter_redated_uncovered_all {l : List Holding} {old_date nd : Date}
    {ts : List HoldingType} :
    ((l.filter
        (fun y => decide (y.snapshot_date = old_date ∧ y.type ∉ ts))).map
      (fun y => { y with snapshot_date := nd })).filter
        (fun h => !decide (h.type ∈ ts)) =
      (l.filter
        (fun y => decide (y.snapshot_date = old_date ∧ y.type ∉ ts))).map
      (fun y => { y with snapshot_date := nd }) := by
  rw [List.filter_eq_self]
  intro x hx
  simpa using mem_redated_type_not_covered hx

theorem filter_covered_at_old_none {l : List Holding} {old_date : Date}
    {ts : List HoldingType} :
    (l.filter (fun y => decide (y.snapshot_date = old_date ∧ y.type ∉ ts))).filter
      (fun h => decide (h.type ∈ ts)) = [] := by
  rw [List.filter_eq_nil_iff]
  intro x hx
  rw [List.mem_filter] at hx
  have := of_decide_eq_true hx.2
  simpa using this.2

theorem upload_final_snapshot {s : Store} {new_date : Date}
    (df : List HoldingRow) (ts : List HoldingType) (nf sx : Option Rat)
    (hwf : WellFormed s) (hnew : validDate new_date) :
    ∃ S0 snap,
      (upload s new_date df ts nf sx).1.snapshots = S0 ++ [snap] ∧
      snap.snapshot_date = (upload s new_date df ts nf sx).2.2.2 ∧
      sameMonth new_date (upload s new_date df ts nf sx).2.2.2 ∧
      Date.le new_date (upload s new_date df ts nf sx).2.2.2 ∧
      validDate (upload s new_date df ts nf sx).2.2.2 ∧
      ∀ a ∈ S0, validDate a.snapshot_date ∧
        ¬ sameMonth new_date a.snapshot_date := by
  cases hfind : find_snapshot_in_month s new_date with
  | none =>
    rw [upload_eq_none df ts nf sx hfind]
    refine ⟨s.snapshots, _, rfl, rfl, sameMonth_refl _, Date.le_refl _, hnew, ?_⟩
    intro a ha
    refine ⟨hwf.valid a ha, ?_⟩
    intro hm
    exact (find_snapshot_in_month_eq_none.mp hfind) a ha
      ((inMonthWindow_iff_sameMonth hnew (hwf.valid a ha)).mpr hm)
  | some p =>
    obtain ⟨old_date, sn⟩ := p
    obtain ⟨hsnmem, hsndate, hsm, huniq⟩ := wf_find_some hwf hnew hfind
    by_cases hlt : Date.lt old_date new_date
    · have hnone : ∀ x ∈ s.holdings, x.snapshot_date ≠ new_date :=
        wf_no_holdings_of_find_some hwf hnew hfind (sameMonth_refl new_date)
          (Ne.symm (Date.ne_of_lt hlt))
      rw [upload_eq_some_lt df ts nf sx hfind hlt hnone]
      refine ⟨_, _, rfl, rfl, sameMonth_refl _, Date.le_refl _, hnew, ?_⟩
      intro a ha
      rw [List.mem_filter] at ha
      have hao : a.snapshot_date ≠ old_date := by simpa using ha.2
      refine ⟨hwf.valid a ha.1, ?_⟩
      intro hm
      exact hao ((huniq a ha.1 hm) ▸ hsndate)
    · rw [upload_eq_some_ge df ts nf sx hfind hlt]
      refine ⟨_, _, rfl, rfl, hsm, Date.not_lt.mp hlt,
        hsndate ▸ hwf.valid sn hsnmem, ?_⟩
      intro a ha
      rw [List.mem_filter] at ha
      have hao : a.snapshot_date ≠ old_date := by simpa using ha.2
      refine ⟨hwf.valid a ha.1, ?_⟩
      intro hm
      exact hao ((huniq a ha.1 hm) ▸ hsndate)

theorem find_of_unique_in_month {s1 : Store} {S0 : List Snapshot}
    {snap : Snapshot} {t : Date} (hsnap : s1.snapshots = S0 ++ [snap])
    (hf : sameMonth t snap.snapshot_date) (ht : validDate t)
    (hfv : validDate snap.snapshot_date)
    (h0 : ∀ a ∈ S0, validDate a.snapshot_date ∧ ¬ sameMonth t a.snapshot_date) :
    find_snapshot_in_month s1 t = some (snap.snapshot_date, snap) := by
  unfold find_snapshot_in_month
  rw [hsnap, List.filter_append]
  have h1 : S0.filter (fun x => decide (inMonthWindow t x.snapshot_date)) = [] := by
    rw [List.filter_eq_nil_iff]
    intro a ha
    have := (h0 a ha)
    simpa using fun hw =>
      this.2 ((inMonthWindow_iff_sameMonth ht this.1).mp hw)
  have h2 : [snap].filter (fun x => decide (inMonthWindow t x.snapshot_date)) =
      [snap] := by
    simp [decide_eq_true ((inMonthWindow_iff_sameMonth ht hfv).mpr hf)]
  rw [h1, h2]
  rfl

theorem foldl_uploads_wf (cmds : List UploadCmd) :
    ∀ s : Store, WellFormed s → (∀ c ∈ cmds, validDate c.date) →
      WellFormed (cmds.foldl applyUpload s) := by
  induction cmds with
  | nil => intro s hwf _; exact hwf
  | cons c rest ih =>
    intro s hwf hvalid
    rw [List.foldl_cons]
    exact ih (applyUpload s c)
      (upload_preserves_wf c.rows c.types c.nifty c.sensex hwf
        (hvalid c (List.mem_cons_self c rest)))
      (fun x hx => hvalid x (List.mem_cons_of_mem c hx))

theorem runUploads_wf (cmds : List UploadCmd)
    (hvalid : ∀ c ∈ cmds, validDate c.date) : WellFormed (runUploads cmds) :=
  foldl_uploads_wf cmds emptyStore wf_empty hvalid

theorem filter_at_old_uncovered (l : List Holding) (old_date : Date)
    (ts : List HoldingType) :
    (l.filter (fun x => decide (x.snapshot_date = old_date))).filter
        (fun h => !decide (h.type ∈ ts)) =
      l.filter (fun y => decide (y.snapshot_date = old_date ∧ y.type ∉ ts)) := by
  rw [List.filter_filter]
  apply List.filter_congr
  intro x _
  by_cases hx : x.snapshot_date = old_date <;>
    by_cases hty : x.type ∈ ts <;> simp [hx, hty]

theorem any_filter_not_date (S : List Snapshot) (old_date : Date) :
    (S.filter (fun x => !decide (x.snapshot_date = old_date))).any
      (fun x => decide (x.snapshot_date = old_date)) = false := by
  rw [List.any_eq_false]
  intro x hx
  rw [List.mem_filter] at hx
  simpa using (by simpa using hx.2 : ¬ x.snapshot_date = old_date)

/-! ### The claims -/

/-- C1: starting from the empty store, after any sequence of merge calls each
followed by the caller's summarize-and-save handoff (fetch all holdings at
final_date, summarize, write a Snapshot row), every date present among stored
Holding rows carries exactly one Snapshot row, and that Snapshot's
total_value equals the sum of current_value over the Holding rows at that
date. -/
theorem merge_sequence_snapshot_invariant (cmds : List UploadCmd)
    (hvalid : ∀ c ∈ cmds, validDate c.date) (d : Date)
    (hd : ∃ h ∈ (runUploads cmds).holdings, h.snapshot_date = d) :
    snapshotCountAt (runUploads cmds) d = 1 ∧
      ∀ sn ∈ (runUploads cmds).snapshots, sn.snapshot_date = d →
        sn.total_value = holdingsTotalAt (runUploads cmds) d := by
  have hwf := runUploads_wf cmds hvalid
  obtain ⟨h, hh, hhd⟩ := hd
  obtain ⟨sn0, hsn0, hsn0d⟩ := hwf.hasSnap h hh
  constructor
  · apply Nat.le_antisymm
    · apply countP_le_one_of_pairwise
      apply hwf.monthsOnce.imp
      intro a b hnm hp
      exact hnm (sameMonth_of_eq
        ((of_decide_eq_true hp.1).trans (of_decide_eq_true hp.2).symm))
    · exact List.countP_pos_iff.mpr ⟨sn0, hsn0, decide_eq_true (hsn0d.trans hhd)⟩
  · intro sn hsn hsnd
    rw [hwf.totals sn hsn, hsnd]

unseal Rat.add Rat.mul Rat.inv Rat.sub in
/-- C1 witness: two concrete uploads (stocks and funds on Jan 5, crypto on
Jan 20 of the same month) instantiate the invariant at the resulting date. -/
theorem merge_sequence_snapshot_invariant_witness :
    (∀ c ∈ cmds2, validDate c.date) ∧
    (∃ h ∈ (runUploads cmds2).holdings, h.snapshot_date = jan20) ∧
    (snapshotCountAt (runUploads cmds2) jan20 = 1 ∧
      ∀ sn ∈ (runUploads cmds2).snapshots, sn.snapshot_date = jan20 →
        sn.total_value = holdingsTotalAt (runUploads cmds2) jan20) :=
  ⟨by decide, by decide,
   merge_sequence_snapshot_invariant cmds2 (by decide) jan20 (by decide)⟩

/-- C3: with no same-month snapshot, merge returns final_date = new_date and
migrated = 0 and simply appends the batch; with a snapshot at old_date in the
month, final_date = max(old_date, new_date); in every case new_count is the
batch length and the whole batch is written stamped with final_date. -/
theorem merge_result_contract (s : Store) (new_date : Date)
    (df : List HoldingRow) (ts : List HoldingType) :
    (find_snapshot_in_month s new_date = none →
      merge_holdings_within_month s new_date df ts =
        ({ s with holdings := s.holdings ++ df.map (·.toHolding new_date) },
         0, df.length, new_date)) ∧
    (∀ old_date sn, find_snapshot_in_month s new_date = some (old_date, sn) →
      (merge_holdings_within_month s new_date df ts).2.2.2 =
        dmax old_date new_date) ∧
    (merge_holdings_within_month s new_date df ts).2.2.1 = df.length ∧
    ∃ rest, (merge_holdings_within_month s new_date df ts).1.holdings =
      rest ++ df.map
        (·.toHolding (merge_holdings_within_month s new_date df ts).2.2.2) := by
  refine ⟨fun h => merge_eq_none df ts h, ?_,
    (merge_appends_batch s new_date df ts).1,
    (merge_appends_batch s new_date df ts).2⟩
  intro old_date sn h
  by_cases hlt : Date.lt old_date new_date
  · rw [merge_eq_some_lt df ts h hlt, dmax_eq_right hlt]
  · rw [merge_eq_some_ge df ts h hlt, dmax_eq_left hlt]

/-- C3 witness: merging a one-row stock batch into the empty store on
Jan 15 2025 returns migrated 0, count 1, final date Jan 15. -/
theorem merge_result_contract_witness :
    find_snapshot_in_month emptyStore jan15 = none ∧
    merge_holdings_within_month emptyStore jan15 [stockRow]
        [HoldingType.stock] =
      ({ emptyStore with holdings := emptyStore.holdings ++ [stockRow].map (·.toHolding jan15) }, 0, [stockRow].length, jan15) :=
  ⟨by decide,
   (merge_result_contract emptyStore jan15 [stockRow] [HoldingType.stock]).1
     (by decide)⟩

/-- C9: the summary's totals are the sums of current_value, invested_value
and the per-holding unrealized_pl (the P&L sum, not value minus invested),
total_pl_pct is total_pl / total_invested * 100 when total_invested > 0 and
0 otherwise, and the empty batch yields the all-zero summary. -/
theorem calculate_portfolio_summary_spec :
    (∀ hs : List Holding,
      (calculate_portfolio_summary hs).total_value =
        (hs.map (·.current_value)).sum ∧
      (calculate_portfolio_summary hs).total_invested =
        (hs.map (·.invested_value)).sum ∧
      (calculate_portfolio_summary hs).total_pl =
        (hs.map (·.unrealized_pl)).sum ∧
      (calculate_portfolio_summary hs).total_pl_pct =
        (if (hs.map (·.invested_value)).sum > 0 then
          (hs.map (·.unrealized_pl)).sum / (hs.map (·.invested_value)).sum * 100
        else 0)) ∧
    calculate_portfolio_summary [] =
      { total_value := 0, total_invested := 0, total_pl := 0, total_pl_pct := 0
        stocks_value := 0, mf_value := 0, us_stocks_value := 0 } :=
  ⟨fun hs => ⟨summary_total_value hs, summary_total_invested hs,
    summary_total_pl hs, summary_total_pl_pct hs⟩, rfl⟩

/-- C10: the reconciliation decision reads only the Snapshot table: with no
Snapshot row in new_date's calendar month, merge returns migrated 0, appends
the batch at new_date and leaves every pre-existing Holding row unchanged,
whatever holdings exist — even holdings dated inside that same month. -/
theorem merge_depends_only_on_snapshots (s : Store) (new_date : Date)
    (df : List HoldingRow) (ts : List HoldingType)
    (hnone : ∀ sn ∈ s.snapshots, ¬ inMonthWindow new_date sn.snapshot_date) :
    merge_holdings_within_month s new_date df ts =
      ({ s with holdings := s.holdings ++ df.map (·.toHolding new_date) },
       0, df.length, new_date) :=
  merge_eq_none df ts (find_snapshot_in_month_eq_none.mpr hnone)

/-- C10 witness: a store with a Jan 5 holding but no snapshot row: the
Jan 20 merge of the same month leaves the Jan 5 holding in place, so
holdings coexist at two distinct dates within one calendar month. -/
theorem merge_depends_only_on_snapshots_witness :
    (∀ sn ∈ storeNoSnap.snapshots, ¬ inMonthWindow jan20 sn.snapshot_date) ∧
    merge_holdings_within_month storeNoSnap jan20 [cryptoRow]
        [HoldingType.crypto] =
      ({ storeNoSnap with holdings := storeNoSnap.holdings ++ [cryptoRow].map (·.toHolding jan20) }, 0, [cryptoRow].length, jan20) ∧
    (merge_holdings_within_month storeNoSnap jan20 [cryptoRow]
        [HoldingType.crypto]).1.holdings.map (·.snapshot_date) =
      [jan5, jan20] :=
  ⟨by decide,
   merge_depends_only_on_snapshots storeNoSnap jan20 [cryptoRow]
     [HoldingType.crypto] (by decide),
   by decide⟩

unseal Rat.add Rat.mul Rat.inv Rat.sub in
/-- C4 counterexample: the claimed validation does not exist.  A batch whose
only row is a stock is accepted with covered types crypto-free
[mutual_fund], and also with empty covered types: in both runs the merge
succeeds and the full batch is written to the store. -/
theorem merge_type_mismatch_writes_anyway :
    (merge_holdings_within_month emptyStore jan15 [stockRow]
        [HoldingType.mutual_fund]).1.holdings = [stockRow.toHolding jan15] ∧
    (merge_holdings_within_month emptyStore jan15 [stockRow]
        [HoldingType.mutual_fund]).2.2.1 = 1 ∧
    (merge_holdings_within_month emptyStore jan15 [stockRow] []).1.holdings =
      [stockRow.toHolding jan15] := by decide

/-- C4 amended: merge_holdings_within_month performs no validation of the
batch against covered_types: whatever the types in the batch and whatever
covered_types (even empty with a non-empty batch), the merge succeeds,
reports new_count = batch length, and writes the entire batch stamped with
final_date. -/
theorem merge_never_validates_types (s : Store) (new_date : Date)
    (df : List HoldingRow) (ts : List HoldingType) :
    (merge_holdings_within_month s new_date df ts).2.2.1 = df.length ∧
      ∃ rest, (merge_holdings_within_month s new_date df ts).1.holdings =
        rest ++ df.map
          (·.toHolding (merge_holdings_within_month s new_date df ts).2.2.2) :=
  merge_appends_batch s new_date df ts

unseal Rat.add Rat.mul Rat.inv Rat.sub in
/-- C8: uploading a single crypto position worth 100 stores the holding
(the spec-side per-type subtotal of the stored holdings is 100), yet the
Snapshot row written by the handoff carries crypto_value = 0, because
calculate_portfolio_summary returns no crypto subtotal and the caller's
summary.get("crypto_value", 0.0) always takes the default. -/
theorem crypto_subtotal_is_dropped :
    value_by_type (get_holdings cryptoUpload jan15) HoldingType.crypto = 100 ∧
    cryptoUpload.snapshots.map (·.crypto_value) = [0] ∧
    cryptoUpload.snapshots.map (·.total_value) = [100] := by decide

/-- C5 counterexample: merge is not atomic.  The state reached after the
reconciliation steps (migration of the Jan 5 holdings and deletion of the
Jan 5 snapshot, each committed in its own session) but before the new batch
is written differs from the initial store: the mutual-fund holding is
already re-dated to Jan 20, the stock holding deleted, and the snapshot
gone, with no replacement batch present. -/
theorem merge_not_atomic_counterexample :
    (merge_reconcile storeJan5 jan20 [HoldingType.stock]).1 ≠ storeJan5 ∧
    (merge_reconcile storeJan5 jan20 [HoldingType.stock]).1.holdings =
      [mfRow.toHolding jan20] ∧
    (merge_reconcile storeJan5 jan20 [HoldingType.stock]).1.snapshots = [] := by
  decide

/-- C5 amended: each constituent repository call commits separately, so the
merge is not one transaction: whenever an older same-month snapshot exists,
the intermediate store committed before the final save_holdings call already
has no holding and no snapshot at old_date, and the merge result is exactly
the batch write applied on top of that committed intermediate state — a
failure of the final write leaves the intermediate state, not the original
one. -/
theorem merge_reconcile_commits_before_write {s : Store}
    {new_date old_date : Date} {sn : Snapshot} (df : List HoldingRow)
    (ts : List HoldingType)
    (hfind : find_snapshot_in_month s new_date = some (old_date, sn))
    (hlt : Date.lt old_date new_date) :
    get_holdings (merge_reconcile s new_date ts).1 old_date = [] ∧
    snapshot_exists (merge_reconcile s new_date ts).1 old_date = false ∧
    merge_holdings_within_month s new_date df ts =
      ((save_holdings (merge_reconcile s new_date ts).1 df new_date).1,
       (merge_reconcile s new_date ts).2.1, df.length, new_date) := by
  have hrec := merge_reconcile_eq_lt ts hfind hlt
  refine ⟨?_, ?_, ?_⟩
  · rw [hrec]
    simp only [get_holdings]
    exact filter_not_date_at_self
  · rw [hrec]
    simp only [snapshot_exists]
    exact any_filter_not_date s.snapshots old_date
  · rw [merge_via_reconcile, hrec]

/-- C5 amended witness: the Jan 5 store merged at Jan 20 covering stocks. -/
theorem merge_reconcile_commits_before_write_witness :
    find_snapshot_in_month storeJan5 jan20 = some (jan5, mkSnapshot jan5 1600) ∧
    Date.lt jan5 jan20 ∧
    (get_holdings (merge_reconcile storeJan5 jan20 [HoldingType.stock]).1 jan5 = [] ∧
     snapshot_exists (merge_reconcile storeJan5 jan20 [HoldingType.stock]).1 jan5 = false ∧
     merge_holdings_within_month storeJan5 jan20 [stockRow] [HoldingType.stock] =
       ((save_holdings (merge_reconcile storeJan5 jan20 [HoldingType.stock]).1 [stockRow] jan20).1,
        (merge_reconcile storeJan5 jan20 [HoldingType.stock]).2.1, [stockRow].length, jan20)) :=
  ⟨by decide, by decide,
   @merge_reconcile_commits_before_write storeJan5 jan20 jan5
     (mkSnapshot jan5 1600) [stockRow] [HoldingType.stock]
     (by decide) (by decide)⟩

theorem filter_uncovered_at_old_all {l : List Holding} {old_date : Date}
    {ts : List HoldingType} :
    (l.filter (fun y => decide (y.snapshot_date = old_date ∧ y.type ∉ ts))).filter
        (fun h => !decide (h.type ∈ ts)) =
      l.filter (fun y => decide (y.snapshot_date = old_date ∧ y.type ∉ ts)) := by
  rw [List.filter_eq_self]
  intro x hx
  rw [List.mem_filter] at hx
  simpa using (of_decide_eq_true hx.2).2

/-- C2: with an existing same-month snapshot at old_date and a merge covering
a strict subset of the types stored there: final_date is max(old_date,
new_date); the old date's holdings of uncovered types survive with unchanged
field values at final_date — re-dated, with their count reported as
migrated, when old_date < final_date, and left in place with migrated = 0
when old_date = final_date; the old date's holdings of covered types are
deleted and fully replaced by the new batch at final_date; and when
old_date is not final_date, no Holding row and no Snapshot row remains at
old_date. -/
theorem merge_type_scoped_replacement {s : Store} {new_date old_date : Date}
    {sn : Snapshot} (df : List HoldingRow) (ts : List HoldingType)
    (hfind : find_snapshot_in_month s new_date = some (old_date, sn))
    (hclean : Date.lt old_date new_date →
      ∀ x ∈ s.holdings, x.snapshot_date ≠ new_date)
    (hbatch : ∀ r ∈ df, r.type ∈ ts)
    (_hstrict : (∀ t ∈ ts, ∃ h ∈ get_holdings s old_date, h.type = t) ∧
      ∃ h ∈ get_holdings s old_date, h.type ∉ ts) :
    (merge_holdings_within_month s new_date df ts).2.2.2 =
      dmax old_date new_date ∧
    (Date.lt old_date new_date →
      (get_holdings (merge_holdings_within_month s new_date df ts).1
          new_date).filter (fun h => !decide (h.type ∈ ts)) =
        ((get_holdings s old_date).filter (fun h => !decide (h.type ∈ ts))).map
          (fun h => { h with snapshot_date := new_date }) ∧
      (merge_holdings_within_month s new_date df ts).2.1 =
        ((get_holdings s old_date).filter
          (fun h => !decide (h.type ∈ ts))).length) ∧
    (¬ Date.lt old_date new_date →
      (get_holdings (merge_holdings_within_month s new_date df ts).1
          old_date).filter (fun h => !decide (h.type ∈ ts)) =
        (get_holdings s old_date).filter (fun h => !decide (h.type ∈ ts)) ∧
      (merge_holdings_within_month s new_date df ts).2.1 = 0) ∧
    (get_holdings (merge_holdings_within_month s new_date df ts).1
        (dmax old_date new_date)).filter (fun h => decide (h.type ∈ ts)) =
      df.map (·.toHolding (dmax old_date new_date)) ∧
    (old_date ≠ dmax old_date new_date →
      get_holdings (merge_holdings_within_month s new_date df ts).1 old_date =
        [] ∧
      snapshot_exists (merge_holdings_within_month s new_date df ts).1
        old_date = false) := by
  by_cases hlt : Date.lt old_date new_date
  · have hclean' := hclean hlt
    have hne : old_date ≠ new_date := Date.ne_of_lt hlt
    have hdmax : dmax old_date new_date = new_date := dmax_eq_right hlt
    have hmerge := merge_eq_some_lt df ts hfind hlt
    have hgetnew :
        get_holdings (merge_holdings_within_month s new_date df ts).1
          new_date =
        ((s.holdings.filter
            (fun y => decide (y.snapshot_date = old_date ∧ y.type ∉ ts))).map
          (fun y => { y with snapshot_date := new_date })) ++
          df.map (·.toHolding new_date) := by
      rw [hmerge]
      simp only [get_holdings, List.filter_append]
      rw [migrated_filter_at_new s.holdings old_date new_date ts hne hclean',
        filter_map_toHolding_same]
    refine ⟨by rw [hmerge, hdmax], ?_, ?_, ?_, ?_⟩
    · intro _
      constructor
      · rw [hgetnew, List.filter_append, filter_redated_uncovered_all,
          filter_type_map_toHolding_none hbatch, List.append_nil,
          get_holdings, filter_at_old_uncovered]
      · rw [hmerge]
        show s.holdings.countP
            (fun x => decide (x.snapshot_date = old_date ∧ x.type ∉ ts)) = _
        rw [get_holdings, filter_at_old_uncovered,
          List.countP_eq_length_filter]
    · intro h
      exact absurd hlt h
    · rw [hdmax, hgetnew, List.filter_append, filter_redated_covered_none,
        filter_type_map_toHolding_all hbatch, List.nil_append]
    · intro _
      constructor
      · rw [hmerge]
        simp only [get_holdings, List.filter_append]
        rw [filter_not_date_at_self,
          filter_map_toHolding_ne df new_date old_date hne, List.append_nil]
      · rw [hmerge]
        simp only [snapshot_exists]
        exact any_filter_not_date s.snapshots old_date
  · have hdmax : dmax old_date new_date = old_date := dmax_eq_left hlt
    have hmerge := merge_eq_some_ge df ts hfind hlt
    have hgetold :
        get_holdings (merge_holdings_within_month s new_date df ts).1
          old_date =
        (s.holdings.filter
            (fun y => decide (y.snapshot_date = old_date ∧ y.type ∉ ts))) ++
          df.map (·.toHolding old_date) := by
      rw [hmerge]
      simp only [get_holdings, List.filter_append]
      rw [deleted_filter_at_old s.holdings old_date ts,
        filter_map_toHolding_same]
    refine ⟨by rw [hmerge, hdmax], ?_, ?_, ?_, ?_⟩
    · intro h
      exact absurd h hlt
    · intro _
      constructor
      · rw [hgetold, List.filter_append, filter_uncovered_at_old_all,
          filter_type_map_toHolding_none hbatch, List.append_nil,
          get_holdings, filter_at_old_uncovered]
      · rw [hmerge]
    · rw [hdmax, hgetold, List.filter_append, filter_covered_at_old_none,
        filter_type_map_toHolding_all hbatch, List.nil_append]
    · intro hne2
      exact absurd hdmax.symm hne2

/-- C2 witness: the Jan 5 store (stock and mutual fund, snapshot total 1600)
merged with a stock-only batch dated Jan 20 exercises the re-dating branch;
the closing conjunct checks the same-date branch concretely (a Jan 5 merge
replaces the stock holding in place, keeps the fund, migrated = 0). -/
theorem merge_type_scoped_replacement_witness :
    find_snapshot_in_month storeJan5 jan20 = some (jan5, mkSnapshot jan5 1600) ∧
    (Date.lt jan5 jan20 → ∀ x ∈ storeJan5.holdings, x.snapshot_date ≠ jan20) ∧
    (∀ r ∈ [stockRow], r.type ∈ [HoldingType.stock]) ∧
    ((∀ t ∈ [HoldingType.stock], ∃ h ∈ get_holdings storeJan5 jan5, h.type = t) ∧
      ∃ h ∈ get_holdings storeJan5 jan5, h.type ∉ [HoldingType.stock]) ∧
    ((merge_holdings_within_month storeJan5 jan20 [stockRow]
        [HoldingType.stock]).2.2.2 = dmax jan5 jan20 ∧
     (Date.lt jan5 jan20 →
       (get_holdings (merge_holdings_within_month storeJan5 jan20 [stockRow]
          [HoldingType.stock]).1 jan20).filter
            (fun h => !decide (h.type ∈ [HoldingType.stock])) =
         ((get_holdings storeJan5 jan5).filter
            (fun h => !decide (h.type ∈ [HoldingType.stock]))).map
           (fun h => { h with snapshot_date := jan20 }) ∧
       (merge_holdings_within_month storeJan5 jan20 [stockRow]
          [HoldingType.stock]).2.1 =
         ((get_holdings storeJan5 jan5).filter
           (fun h => !decide (h.type ∈ [HoldingType.stock]))).length) ∧
     (¬ Date.lt jan5 jan20 →
       (get_holdings (merge_holdings_within_month storeJan5 jan20 [stockRow]
          [HoldingType.stock]).1 jan5).filter
            (fun h => !decide (h.type ∈ [HoldingType.stock])) =
         (get_holdings storeJan5 jan5).filter
           (fun h => !decide (h.type ∈ [HoldingType.stock])) ∧
       (merge_holdings_within_month storeJan5 jan20 [stockRow]
          [HoldingType.stock]).2.1 = 0) ∧
     (get_holdings (merge_holdings_within_month storeJan5 jan20 [stockRow]
        [HoldingType.stock]).1 (dmax jan5 jan20)).filter
          (fun h => decide (h.type ∈ [HoldingType.stock])) =
       [stockRow].map (·.toHolding (dmax jan5 jan20)) ∧
     (jan5 ≠ dmax jan5 jan20 →
       get_holdings (merge_holdings_within_month storeJan5 jan20 [stockRow]
          [HoldingType.stock]).1 jan5 = [] ∧
       snapshot_exists (merge_holdings_within_month storeJan5 jan20 [stockRow]
          [HoldingType.stock]).1 jan5 = false)) ∧
    ((merge_holdings_within_month storeJan5 jan5 [stockRow]
        [HoldingType.stock]).1.holdings =
      [mfRow.toHolding jan5, stockRow.toHolding jan5] ∧
     (merge_holdings_within_month storeJan5 jan5 [stockRow]
        [HoldingType.stock]).2.1 = 0 ∧
     (merge_holdings_within_month storeJan5 jan5 [stockRow]
        [HoldingType.stock]).2.2.2 = jan5) :=
  ⟨by decide, by decide, by decide, by decide,
   @merge_type_scoped_replacement storeJan5 jan20 jan5 (mkSnapshot jan5 1600)
     [stockRow] [HoldingType.stock] (by decide) (by decide) (by decide)
     (by decide),
   by decide⟩

/-- C7: the month window of find_snapshot_in_month runs from the first day of
the target's month (inclusive) to the first day of the next month
(exclusive), December rolling over to January of the next year, so that on
calendar-valid dates it is exactly the same-calendar-month test; the
function returns the most recent snapshot date within the window, or nothing
when no snapshot lies in the month. -/
theorem find_period_spec (s : Store) (t : Date) (ht : validDate t)
    (hv : ∀ sn ∈ s.snapshots, validDate sn.snapshot_date) :
    (∀ d : Date, validDate d → (inMonthWindow t d ↔ sameMonth t d)) ∧
    (find_snapshot_in_month s t = none ↔
      ∀ sn ∈ s.snapshots, ¬ sameMonth t sn.snapshot_date) ∧
    (∀ d sn, find_snapshot_in_month s t = some (d, sn) →
      sn ∈ s.snapshots ∧ sn.snapshot_date = d ∧ sameMonth t d ∧
        ∀ other ∈ s.snapshots, sameMonth t other.snapshot_date →
          Date.le other.snapshot_date d) := by
  refine ⟨fun d hd => inMonthWindow_iff_sameMonth ht hd, ?_, ?_⟩
  · rw [find_snapshot_in_month_eq_none]
    constructor
    · intro h sn hsn hm
      exact h sn hsn ((inMonthWindow_iff_sameMonth ht (hv sn hsn)).mpr hm)
    · intro h sn hsn hw
      exact h sn hsn ((inMonthWindow_iff_sameMonth ht (hv sn hsn)).mp hw)
  · intro d sn hfind
    obtain ⟨hmem, hdate, hw, hmax⟩ := find_snapshot_in_month_eq_some hfind
    refine ⟨hmem, hdate, (inMonthWindow_iff_sameMonth ht
      (hdate ▸ hv sn hmem)).mp hw, ?_⟩
    intro other hother hm
    exact hmax other hother
      ((inMonthWindow_iff_sameMonth ht (hv other hother)).mpr hm)

/-- C7 witness: with snapshots at Dec 3 2024 and Jan 2 2025, the Dec 15 2024
target finds the Dec 3 snapshot and not the Jan 2 one. -/
theorem find_period_spec_witness :
    validDate dec15 ∧
    (∀ sn ∈ storeDec.snapshots, validDate sn.snapshot_date) ∧
    find_snapshot_in_month storeDec dec15 = some (dec3, mkSnapshot dec3 0) ∧
    ((∀ d : Date, validDate d → (inMonthWindow dec15 d ↔ sameMonth dec15 d)) ∧
     (find_snapshot_in_month storeDec dec15 = none ↔
       ∀ sn ∈ storeDec.snapshots, ¬ sameMonth dec15 sn.snapshot_date) ∧
     (∀ d sn, find_snapshot_in_month storeDec dec15 = some (d, sn) →
       sn ∈ storeDec.snapshots ∧ sn.snapshot_date = d ∧ sameMonth dec15 d ∧
         ∀ other ∈ storeDec.snapshots, sameMonth dec15 other.snapshot_date →
           Date.le other.snapshot_date d)) :=
  ⟨by decide, by decide, by decide,
   find_period_spec storeDec dec15 (by decide) (by decide)⟩

/-- C6: uploading the identical batch twice with the identical date and
identical covered types (each upload a merge followed by the
summarize-and-save handoff) is idempotent: after the second upload the
holdings stored at the final date for the covered types are exactly the
second batch's holdings, and their count equals the batch size. -/
theorem double_upload_idempotent {s s1 s2 : Store} {d f1 f2 : Date}
    {m1 n1 m2 n2 : Nat} (df : List HoldingRow) (ts : List HoldingType)
    (nf sx nf' sx' : Option Rat)
    (hwf : WellFormed s) (hd : validDate d)
    (hbatch : ∀ r ∈ df, r.type ∈ ts)
    (h1 : upload s d df ts nf sx = (s1, m1, n1, f1))
    (h2 : upload s1 d df ts nf' sx' = (s2, m2, n2, f2)) :
    f2 = f1 ∧
    (get_holdings s2 f2).filter (fun h => decide (h.type ∈ ts)) =
      df.map (·.toHolding f2) ∧
    ((get_holdings s2 f2).filter (fun h => decide (h.type ∈ ts))).length =
      df.length := by
  obtain ⟨S0, snap, hsnap, hsdate, hsm, hle, hvf, h0⟩ :=
    upload_final_snapshot df ts nf sx hwf hd
  rw [h1] at hsnap hsdate hsm hle hvf
  simp only at hsnap hsdate hsm hle hvf
  have hfind1 : find_snapshot_in_month s1 d = some (snap.snapshot_date, snap) :=
    find_of_unique_in_month hsnap (hsdate ▸ hsm) hd (hsdate ▸ hvf) h0
  have hge : ¬ Date.lt snap.snapshot_date d := by
    rw [hsdate]
    exact Date.not_lt.mpr hle
  have h2' := upload_eq_some_ge df ts nf' sx' hfind1 hge
  rw [h2] at h2'
  have hs2 := congrArg Prod.fst h2'
  have hf2 := congrArg (fun p : Store × Nat × Nat × Date => p.2.2.2) h2'
  simp only at hs2 hf2
  have hf2' : f2 = f1 := hf2.trans hsdate
  refine ⟨hf2', ?_, ?_⟩
  · rw [hf2, hs2]
    simp only [get_holdings, List.filter_append]
    rw [deleted_filter_at_old s1.holdings snap.snapshot_date ts,
      filter_map_toHolding_same, filter_covered_at_old_none,
      filter_type_map_toHolding_all hbatch, List.nil_append]
  · rw [hf2, hs2]
    simp only [get_holdings, List.filter_append]
    rw [deleted_filter_at_old s1.holdings snap.snapshot_date ts,
      filter_map_toHolding_same, filter_covered_at_old_none,
      filter_type_map_toHolding_all hbatch, List.nil_append, List.length_map]

unseal Rat.add Rat.mul Rat.inv Rat.sub in
/-- C6 witness: the crypto batch of one position uploaded twice at
Jan 15 2025 into the empty store: the second upload leaves exactly the batch
at that date, with count 1. -/
theorem double_upload_idempotent_witness :
    upload emptyStore jan15 [cryptoRow] [HoldingType.crypto] none none =
      ({ holdings := [cryptoRow.toHolding jan15], snapshots := [mkSnapshot jan15 100] }, 0, 1, jan15) ∧
    upload { holdings := [cryptoRow.toHolding jan15], snapshots := [mkSnapshot jan15 100] } jan15 [cryptoRow] [HoldingType.crypto] none none =
      ({ holdings := [cryptoRow.toHolding jan15], snapshots := [mkSnapshot jan15 100] }, 0, 1, jan15) ∧
    (jan15 = jan15 ∧
     (get_holdings { holdings := [cryptoRow.toHolding jan15], snapshots := [mkSnapshot jan15 100] } jan15).filter
        (fun h => decide (h.type ∈ [HoldingType.crypto])) =
       [cryptoRow].map (·.toHolding jan15) ∧
     ((get_holdings { holdings := [cryptoRow.toHolding jan15], snapshots := [mkSnapshot jan15 100] } jan15).filter
        (fun h => decide (h.type ∈ [HoldingType.crypto]))).length =
       [cryptoRow].length) :=
  ⟨by decide, by decide,
   @double_upload_idempotent emptyStore
     { holdings := [cryptoRow.toHolding jan15], snapshots := [mkSnapshot jan15 100] }
     { holdings := [cryptoRow.toHolding jan15], snapshots := [mkSnapshot jan15 100] }
     jan15 jan15 jan15 0 1 0 1 [cryptoRow] [HoldingType.crypto] none none
     none none wf_empty (by decide) (by decide) (by decide) (by decide)⟩
